import Mathlib

/-!
Verification of the ralph-task reconciliation planner.

This file shallowly embeds the reconciliation core of the ralph-task
repository (src/story-id.ts, src/sync-engine.ts, src/sync-state.ts,
src/sync-with-state.ts) as executable Lean definitions and proves the
specification's claims about it.

Modelling conventions:
* JavaScript strings are Lean `String`s; character-level functions work on
  `List Char` (`String.data`).
* `Array.prototype.sort` with `localeCompare` is modelled as a stable
  insertion sort under code-point lexicographic order.  (The system sorts
  board/label/story identifiers, which are ASCII alphanumeric strings, for
  which the ICU default collation agrees with code-point order.)
* JS `Map` built by repeated `set` is modelled as an association list read
  with last-occurrence-wins lookup (`mapGet`).  `Record<string, _>` objects
  (which have unique keys) are modelled the same way.
* Foreign library calls that the planner only consumes pointwise —
  `Date.parse` and the SHA-256 `hashText` — are environment parameters
  (`dateParse : String → Option Int`, `hashText : String → String`),
  matching how the planner treats them as black boxes.
* Asynchronous adapter reads are snapshots passed in as plain data, which is
  exactly how `buildPlan` consumes them after its initial `Promise.all`.
-/

namespace RalphTask

/-- JS regex `\d`: exactly the ASCII digits `0`–`9`. -/
def isJsDigit (c : Char) : Bool := '0' ≤ c && c ≤ '9'

/-- Code-point lexicographic order on character lists (model of the ordering
`localeCompare` induces on the ASCII identifier strings this system sorts). -/
def lexLe : List Char → List Char → Bool
  | [], _ => true
  | _ :: _, [] => false
  | a :: as, b :: bs => if a = b then lexLe as bs else decide (a < b)

/-- String comparison used by the source's `sortStrings` helper. -/
def strLe (a b : String) : Bool := lexLe a.data b.data

/-- Stable insertion of an element into a list sorted by a string key;
building block of the model of `Array.prototype.sort(localeCompare)`. -/
def insertByKey {α : Type} (key : α → String) (x : α) : List α → List α
  | [] => [x]
  | y :: ys => if strLe (key x) (key y) then x :: y :: ys else y :: insertByKey key x ys

/-- Sort by a string key (model of the source's `.sort((l, r) => l.localeCompare(r))`
and the plan-bucket sorts). -/
def sortByKey {α : Type} (key : α → String) (l : List α) : List α :=
  l.foldr (insertByKey key) []

/-- The source's `sortStrings`: copy the array and sort it by `localeCompare`. -/
def sortStrings (values : List String) : List String := sortByKey id values

/-- Sortedness predicate for key-sorted lists. -/
def KeySorted {α : Type} (key : α → String) (l : List α) : Prop :=
  List.Pairwise (fun a b => strLe (key a) (key b) = true) l

/-- Deduplicate keeping the first occurrence of every element
(the iteration/dedup behaviour of a JS `Set` or of `Map` keys). -/
def dedupFirstAux (seen : List String) : List String → List String
  | [] => []
  | x :: xs =>
      if seen.contains x then dedupFirstAux seen xs
      else x :: dedupFirstAux (x :: seen) xs

def dedupKeepFirst (l : List String) : List String := dedupFirstAux [] l

/-- Keys occurring at least twice, in order of first duplicate occurrence;
models the `duplicateStoryIds` set built while indexing PRD stories. -/
def dupKeysAux (seen dups : List String) : List String → List String
  | [] => []
  | x :: xs =>
      if seen.contains x then
        if dups.contains x then dupKeysAux seen dups xs
        else x :: dupKeysAux seen (x :: dups) xs
      else dupKeysAux (x :: seen) dups xs

def dupKeys (l : List String) : List String := dupKeysAux [] [] l

/-- Association-list lookup with last-occurrence-wins semantics: the value a
JS `Map` built by repeated `set` calls (or a `Record` literal) returns. -/
def mapGet {κ α : Type} [BEq κ] (entries : List (κ × α)) (key : κ) : Option α :=
  (entries.reverse.find? (fun e => e.1 == key)).map (·.2)

/-!
### Identifier codec (src/story-id.ts)

`createStoryIdCodec` compiles, per mapping configuration, an identifier
regex and a card-title template regex.  For the repository's canonical
configuration

  storyPfx = "US", idPattern = "\x7bprefix\x7d-\x7bnumber:3\x7d",
  cardTitleFormat = "[\x7bid\x7d] \x7btitle\x7d"

the compiled identifier regex is `US-\d\x7b3\x7d` (searched globally by
`parseCardTitle` via `matchAll`) and the compiled template regex is
`^\[(?<id>US-\d\x7b3\x7d)\] (?<title>.*?)$`.  The definitions below embed those
compiled matchers with JavaScript semantics: `\d` is `[0-9]`, `.` excludes
line terminators, and `matchAll` scans left to right, non-overlapping,
resuming after each match.
-/

/-- Attempt to match the compiled identifier regex `US-\d\x7b3\x7d` at the head of
the input, returning the six matched characters and the remainder. -/
def idTake : List Char → Option (List Char × List Char)
  | c1 :: c2 :: c3 :: c4 :: c5 :: c6 :: rest =>
      if c1 = 'U' ∧ c2 = 'S' ∧ c3 = '-' ∧
          isJsDigit c4 = true ∧ isJsDigit c5 = true ∧ isJsDigit c6 = true then
        some ([c1, c2, c3, c4, c5, c6], rest)
      else none
  | _ => none

/-- The `matchAll` scan of the compiled identifier regex: left to right,
non-overlapping, resuming immediately after each match.  Implemented with a
length fuel so that it is structurally recursive; `scanAux_fuel_eq` shows the
fuel is irrelevant once it covers the input length. -/
def scanAux : Nat → List Char → List (List Char)
  | _, [] => []
  | 0, _ :: _ => []
  | fuel + 1, c :: rest =>
      match idTake (c :: rest) with
      | some (m, r) => m :: scanAux fuel r
      | none => scanAux fuel rest

def scanMatches (l : List Char) : List (List Char) := scanAux l.length l

/-- Every position at which the identifier regex matches, in position order,
overlaps included (the specification-side reading of "substrings matching
the identifier pattern"). -/
def idOccurrences : List Char → List (List Char)
  | [] => []
  | c :: rest =>
      match idTake (c :: rest) with
      | some (m, _) => m :: idOccurrences rest
      | none => idOccurrences rest

/-- JS `String.prototype.trim` whitespace class (WhiteSpace ∪ LineTerminator). -/
def isJsWhitespace (c : Char) : Bool :=
  c = '\t' || c = '\n' || c = '\x0b' || c = '\x0c' || c = '\r' || c = ' ' ||
  c = '\xa0' || c = ' ' || (' ' ≤ c && c ≤ ' ') ||
  c = ' ' || c = ' ' || c = ' ' || c = ' ' ||
  c = '　' || c = '﻿'

/-- JS `trim()`: strip the whitespace class from both ends. -/
def jsTrim (l : List Char) : List Char :=
  ((l.dropWhile isJsWhitespace).reverse.dropWhile isJsWhitespace).reverse

/-- JS regex `.` without the `s` flag: any character except a line terminator. -/
def isRegexDotChar (c : Char) : Bool :=
  !(c = '\n' || c = '\r' || c = ' ' || c = ' ')

/-- The compiled card-title template regex
`^\[(?<id>US-\d\x7b3\x7d)\] (?<title>.*?)$` executed against a whole title:
returns the `id` and `title` capture groups when the whole input matches. -/
def execCardTitleRegex (l : List Char) : Option (List Char × List Char) :=
  match l with
  | '[' :: rest =>
      match idTake rest with
      | some (idChars, ']' :: ' ' :: titleChars) =>
          if titleChars.all isRegexDotChar then some (idChars, titleChars)
          else none
      | _ => none
  | _ => none

/-- `StoryIdParseResult` from src/story-id.ts. -/
inductive StoryIdParseResult
  | ok (id title : String)
  | missing (reason : String) (found : List String) (title : String)
  | ambiguous (reason : String) (found : List String) (title : String)
deriving DecidableEq

/-- `parseCardTitle` of the canonical codec (src/story-id.ts:190-229):
`matchAll` the identifier regex, classify by number of matches, and for a
single match re-run the anchored template regex to extract the groups. -/
def parseCardTitle (cardTitle : String) : StoryIdParseResult :=
  let found := (scanMatches cardTitle.data).map (fun m => String.mk m)
  if found.length = 0 then
    .missing "No story ID found in card title" found cardTitle
  else if found.length > 1 then
    .ambiguous "Multiple story IDs found in card title" found cardTitle
  else
    match execCardTitleRegex cardTitle.data with
    | none => .missing "Story ID not in canonical card title format" found cardTitle
    | some (idChars, titleChars) =>
        .ok (String.mk idChars) (String.mk (jsTrim titleChars))

/-- Fuel-based scanner behind `replaceAllChars`; with fuel at least the
input's length it performs leftmost, non-overlapping replacement. -/
def replaceAllAux (search repl : List Char) : Nat → List Char → List Char
  | _, [] => []
  | 0, l => l
  | fuel + 1, c :: rest =>
      if search ≠ [] ∧ search.isPrefixOf (c :: rest) = true then
        repl ++ replaceAllAux search repl fuel ((c :: rest).drop search.length)
      else
        c :: replaceAllAux search repl fuel rest

/-- The source's `replaceAll` helper, `value.split(search).join(replacement)`,
for a nonempty `search`: leftmost, non-overlapping replacement. -/
def replaceAllChars (search repl l : List Char) : List Char :=
  replaceAllAux search repl l.length l

/-- JS `value.split(search).join(replacement)` on strings.  When `search` is
empty, `split` yields the individual characters and `join` interleaves the
replacement, matching JS semantics. -/
def jsReplaceAll (value search replacement : String) : String :=
  if search.data = [] then
    String.mk (List.intercalate replacement.data (value.data.map (fun c => [c])))
  else
    String.mk (replaceAllChars search.data replacement.data value.data)

/-- Full match of the compiled identifier regex, `idRegex.test(id)` with
`^US-\d\x7b3\x7d$`. -/
def idFullMatch (s : String) : Bool :=
  match idTake s.data with
  | some (_, []) => true
  | _ => false

/-- `formatCardTitle` of the canonical codec (src/story-id.ts:177-188):
validate the id against the identifier regex, then substitute the `id` and
`title` placeholders in the card-title template; the thrown
`StoryIdFormatError` is modelled as `none`. -/
def formatCardTitle (id title : String) : Option String :=
  if idFullMatch id then
    some (jsReplaceAll (jsReplaceAll "[{id}] {title}" "{id}" id) "{title}" title)
  else none

/-!
### Data model (src/adapters.ts, src/config.ts, src/sync-state.ts)

`storyPfx` and `dependsOnLabelPfx` are the source's `storyPrefix` and
`dependsOnLabelPrefix` fields under shortened names.
-/

inductive StoryStatus
  | open_
  | in_progress
  | done
deriving DecidableEq

/-- The TS string literal for a status, as interpolated into issue texts. -/
def StoryStatus.text : StoryStatus → String
  | .open_ => "open"
  | .in_progress => "in_progress"
  | .done => "done"

structure PrdStory where
  id : String
  title : String
  status : StoryStatus
  dependsOn : List String
  description : String
  acceptanceCriteria : List String
deriving DecidableEq

structure BoardList where
  id : String
  name : String
  closed : Bool
deriving DecidableEq

/-- Board label; its colour is never consumed by the planner and is omitted. -/
structure BoardLabel where
  id : String
  name : String
deriving DecidableEq

structure BoardCard where
  id : String
  name : String
  description : String
  listId : String
  labelIds : List String
  closed : Bool
  lastActivityAt : String
deriving DecidableEq

structure BoardChecklistItem where
  id : String
  name : String
  checked : Bool
deriving DecidableEq

structure BoardChecklist where
  id : String
  name : String
  items : List BoardChecklistItem
deriving DecidableEq

structure BoardChecklistItemInput where
  name : String
  checked : Bool
deriving DecidableEq

structure BoardChecklistInput where
  name : String
  items : List BoardChecklistItemInput
deriving DecidableEq

structure BoardCardInput where
  name : String
  description : String
  listId : String
  labelIds : List String
deriving DecidableEq

/-- Partial card update; absent fields are `none`. -/
structure BoardCardUpdate where
  name : Option String := none
  description : Option String := none
  listId : Option String := none
  labelIds : Option (List String) := none
  closed : Option Bool := none
deriving DecidableEq

inductive SyncDirection
  | two_way
  | prd_to_trello
  | trello_to_prd
deriving DecidableEq

inductive ConflictPrefer
  | none_
  | trello
  | prd
deriving DecidableEq

structure StatusToList where
  open_ : String
  in_progress : String
  done : String
deriving DecidableEq

structure MappingConfig where
  storyPfx : String
  idPattern : String
  cardTitleFormat : String
  statusToList : StatusToList
  dependsOnLabelPfx : String
  acceptanceCriteriaChecklistName : String
deriving DecidableEq

/-- The `conflict` options block as the planner receives it (all optional). -/
structure ConflictOptions where
  prefer : Option ConflictPrefer := none
  defaultPrefer : Option ConflictPrefer := none
  createMissingLabels : Option Bool := none
  blockWrites : Option Bool := none
deriving DecidableEq

/-- `conflict?.prefer ?? conflict?.defaultPrefer ?? "none"`. -/
def resolveConflictPrefer (conflict : Option ConflictOptions) : ConflictPrefer :=
  ((conflict.bind (·.prefer)).orElse
    (fun _ => conflict.bind (·.defaultPrefer))).getD .none_

/-- `conflict?.createMissingLabels ?? true`. -/
def resolveCreateMissingLabels (conflict : Option ConflictOptions) : Bool :=
  (conflict.bind (·.createMissingLabels)).getD true

structure SyncStateStoryEntry where
  fingerprint : String
deriving DecidableEq

structure SyncStateCardEntry where
  cardId : String
  lastActivityAt : String
deriving DecidableEq

/-- The planner-visible part of persisted incremental state; the metadata
fields (version, timestamps, boardId, prdPath, mappingSignature) are
validated by the store before the planner sees the state and are not
consumed by `buildPlan`. -/
structure SyncState where
  storyIndex : List (String × SyncStateStoryEntry)
  cardIndex : List (String × SyncStateCardEntry)
deriving DecidableEq

/-!
### Fingerprinting (src/sync-state.ts)
-/

/-- JSON string escaping for the canonical fingerprint serialization. -/
def jsonEscapeChar (c : Char) : List Char :=
  if c = '"' then ['\\', '"']
  else if c = '\\' then ['\\', '\\']
  else if c = '\n' then ['\\', 'n']
  else if c = '\r' then ['\\', 'r']
  else if c = '\t' then ['\\', 't']
  else [c]

def jsonQuote (s : String) : String :=
  String.mk ('"' :: (s.data.flatMap jsonEscapeChar ++ ['"']))

def jsonStringArray (l : List String) : String :=
  "[" ++ String.intercalate "," (l.map jsonQuote) ++ "]"

/-- `JSON.stringify` of the normalized projection built by
`createStoryFingerprint` (src/sync-state.ts:46-58): fixed key order and
`dependsOn` sorted. -/
def createStoryFingerprintJson (story : PrdStory) : String :=
  "\x7b\"id\":" ++ jsonQuote story.id ++
  ",\"title\":" ++ jsonQuote story.title ++
  ",\"status\":" ++ jsonQuote story.status.text ++
  ",\"description\":" ++ jsonQuote story.description ++
  ",\"dependsOn\":" ++ jsonStringArray (sortStrings story.dependsOn) ++
  ",\"acceptanceCriteria\":" ++ jsonStringArray story.acceptanceCriteria ++
  "\x7d"

/-- `createStoryFingerprint`: SHA-256 (the environment's `hashText`) of the
canonical JSON projection. -/
def createStoryFingerprint (hashText : String → String) (story : PrdStory) :
    String :=
  hashText (createStoryFingerprintJson story)

/-!
### Planner helpers (src/sync-engine.ts)
-/

/-- JS `String.prototype.startsWith`. -/
def strStartsWith (s pre : String) : Bool := pre.data.isPrefixOf s.data

/-- JS `String.prototype.trim` on strings. -/
def strJsTrim (s : String) : String := String.mk (jsTrim s.data)

/-- `compareIsoTimestamps` (src/sync-engine.ts:282-292) over the `Date.parse`
environment parameter: 0 when either side fails to parse (`NaN`), otherwise
the signed difference. -/
def compareIsoTimestamps (dateParse : String → Option Int)
    (left right : String) : Int :=
  match dateParse left, dateParse right with
  | some leftTime, some rightTime => leftTime - rightTime
  | _, _ => 0

/-- `resolveTimestampComparison` (src/sync-engine.ts:317-331). -/
def resolveTimestampComparison (comparison : Int) (prefer : ConflictPrefer) :
    Int :=
  if comparison ≠ 0 then comparison
  else if prefer = .prd then 1
  else if prefer = .trello then -1
  else 0

structure StatusMappingResult where
  statusToListId : List (StoryStatus × String)
  listIdToStatus : List (String × StoryStatus)
  issues : List String

def noListIssue (status : StoryStatus) (listName : String) : String :=
  "No Trello list found for status '" ++ status.text ++ "' (" ++ listName ++ ")"

def multipleListsIssue (status : StoryStatus) (listName : String) : String :=
  "Multiple Trello lists found for status '" ++ status.text ++ "' (" ++
    listName ++ ")"

/-- The per-status body of the loop in `createStatusMapping`
(src/sync-engine.ts:333-371): pick among name matches, preferring open
lists, deterministically by smallest id, recording ambiguity/missing
issues. -/
def chooseListForStatus (lists : List BoardList) (status : StoryStatus)
    (listName : String) : Option BoardList × List String :=
  let openMatches := lists.filter (fun l => l.name == listName && !l.closed)
  let matches' := if openMatches.length > 0 then openMatches
    else lists.filter (fun l => l.name == listName)
  if matches'.length = 0 then
    (none, [noListIssue status listName])
  else
    let chosen := (sortStrings (matches'.map (·.id))).head?
    let chosenList := matches'.find? (fun l => some l.id == chosen)
    (chosenList,
      if matches'.length > 1 then [multipleListsIssue status listName] else [])

def createStatusMapping (lists : List BoardList) (statusToList : StatusToList) :
    StatusMappingResult :=
  let statusEntries : List (StoryStatus × String) :=
    [(.open_, statusToList.open_), (.in_progress, statusToList.in_progress),
     (.done, statusToList.done)]
  statusEntries.foldl (fun acc entry =>
    let step := chooseListForStatus lists entry.1 entry.2
    { statusToListId := acc.statusToListId ++
        (match step.1 with | some l => [(entry.1, l.id)] | none => [])
      listIdToStatus := acc.listIdToStatus ++
        (match step.1 with | some l => [(l.id, entry.1)] | none => [])
      issues := acc.issues ++ step.2 })
    ⟨[], [], []⟩

structure ChecklistSelection where
  checklist : Option BoardChecklist := none
  issue : Option String := none

/-- `selectChecklist` (src/sync-engine.ts:373-384). -/
def selectChecklist (checklists : List BoardChecklist) (name : String) :
    ChecklistSelection :=
  let matches' := checklists.filter (fun cl => cl.name == name)
  if matches'.length > 1 then
    { issue := some ("Multiple checklists named '" ++ name ++ "' found") }
  else
    { checklist := matches'.head? }

/-- `buildChecklistInput` (src/sync-engine.ts:386-395). -/
def buildChecklistInput (story : PrdStory) (checklistName : String) :
    BoardChecklistInput :=
  { name := checklistName
    items := story.acceptanceCriteria.map (fun criteria =>
      { name := criteria, checked := story.status == .done }) }

/-- `areSetsEqual` (src/sync-engine.ts:271-272). -/
def areSetsEqual (left right : List String) : Bool :=
  sortStrings left == sortStrings right

/-- `areChecklistItemsEqual` (src/sync-engine.ts:274-280). -/
def areChecklistItemsEqual (left right : List BoardChecklistItemInput) : Bool :=
  left == right

/-- `storiesEquivalent` (src/sync-engine.ts:576-582). -/
def storiesEquivalent (left right : PrdStory) : Bool :=
  left.id == right.id && left.title == right.title &&
  left.status == right.status && left.description == right.description &&
  areSetsEqual left.dependsOn right.dependsOn &&
  left.acceptanceCriteria == right.acceptanceCriteria

/-- `hasUpdateFields` (src/sync-engine.ts:573-574). -/
def hasUpdateFields (update : BoardCardUpdate) : Bool :=
  update.name.isSome || update.description.isSome || update.listId.isSome ||
  update.labelIds.isSome || update.closed.isSome

structure LabelResolution where
  labelIds : List String
  missingLabels : List String

/-- `resolveLabelIds` (src/sync-engine.ts:397-423): desired = resolvable
dependency labels, keep = existing card labels without the dependency name
prefix (unknown or empty label names are kept — JS falsiness), merged set
sorted; unresolvable dependency label names are collected (deduplicated,
sorted).  A dependency whose label id resolves to the empty string counts as
missing (`if (!labelId)` is JS falsiness, covering `undefined` and `""`). -/
def resolveLabelIds (story : PrdStory) (mapping : MappingConfig)
    (labelNameToId labelIdToName : String → Option String)
    (card : Option BoardCard) : LabelResolution :=
  let desiredLabelIds := story.dependsOn.filterMap
    (fun dependency =>
      match labelNameToId (mapping.dependsOnLabelPfx ++ dependency) with
      | some lid => if lid == "" then none else some lid
      | none => none)
  let missingNames := story.dependsOn.filterMap (fun dependency =>
    let labelName := mapping.dependsOnLabelPfx ++ dependency
    match labelNameToId labelName with
    | none => some labelName
    | some lid => if lid == "" then some labelName else none)
  let keepLabelIds := match card with
    | some c => c.labelIds.filter (fun labelId =>
        match labelIdToName labelId with
        | none => true
        | some labelName =>
            labelName == "" || !(strStartsWith labelName mapping.dependsOnLabelPfx))
    | none => []
  { labelIds := sortStrings (keepLabelIds ++ desiredLabelIds)
    missingLabels := sortStrings (dedupKeepFirst missingNames) }

structure CardMappingResult where
  cardInput : BoardCardInput
  cardUpdate : BoardCardUpdate
  checklist : BoardChecklistInput
  checklistNeedsUpdate : Bool
  issues : List String
  missingLabels : List String
deriving DecidableEq

/-- `buildCardMapping` (src/sync-engine.ts:425-517).  The codec's
`formatCardTitle` is passed in as `formatTitle`. -/
def buildCardMapping (story : PrdStory) (mapping : MappingConfig)
    (statusMapping : StatusMappingResult)
    (labelNameToId labelIdToName : String → Option String)
    (formatTitle : String → String → String)
    (card : Option BoardCard) (checklists : Option (List BoardChecklist)) :
    CardMappingResult :=
  let listId := mapGet statusMapping.statusToListId story.status
  let listIssues := match listId with
    | none => ["No Trello list mapped for status '" ++ story.status.text ++ "'"]
    | some _ => []
  let resolution := resolveLabelIds story mapping labelNameToId labelIdToName card
  let cardInput : BoardCardInput :=
    { name := formatTitle story.id story.title
      description := story.description
      listId := listId.getD ""
      labelIds := resolution.labelIds }
  let cardUpdate : BoardCardUpdate := match card with
    | none => {}
    | some c =>
      { name := if c.name == cardInput.name then none else some cardInput.name
        description := if c.description == cardInput.description then none
          else some cardInput.description
        listId := match listId with
          | some lid =>
              if lid == "" then none
              else if c.listId == lid then none else some lid
          | none => none
        labelIds := if areSetsEqual c.labelIds resolution.labelIds then none
          else some resolution.labelIds
        closed := none }
  let checklist := buildChecklistInput story mapping.acceptanceCriteriaChecklistName
  let selection := checklists.map
    (fun cls => selectChecklist cls mapping.acceptanceCriteriaChecklistName)
  let checklistNeedsUpdate := match selection with
    | some sel =>
      match sel.issue with
      | some _ => false
      | none =>
        let existingItems := ((match sel.checklist with
          | some cl => cl.items
          | none => []) : List BoardChecklistItem).map (fun item =>
            ({ name := item.name, checked := item.checked } :
              BoardChecklistItemInput))
        if existingItems.length = 0 ∧ checklist.items.length = 0 ∧
            sel.checklist = none then false
        else !(areChecklistItemsEqual existingItems checklist.items)
    | none => checklist.items.length > 0
  let selectionIssues := match selection with
    | some sel => match sel.issue with
      | some issue => [issue]
      | none => []
    | none => []
  { cardInput := cardInput
    cardUpdate := cardUpdate
    checklist := checklist
    checklistNeedsUpdate := checklistNeedsUpdate
    issues := listIssues ++ selectionIssues
    missingLabels := resolution.missingLabels }

structure CardRecord where
  card : BoardCard
  storyId : String
  storyTitle : String
deriving DecidableEq

structure StoryMappingResult where
  story : PrdStory
  issues : List String
deriving DecidableEq

/-- `buildStoryMapping` (src/sync-engine.ts:519-571). -/
def buildStoryMapping (record : CardRecord) (mapping : MappingConfig)
    (statusMapping : StatusMappingResult)
    (labelIdToName : String → Option String)
    (checklists : Option (List BoardChecklist)) : StoryMappingResult :=
  let status := mapGet statusMapping.listIdToStatus record.card.listId
  let statusIssues := match status with
    | none => ["No PRD status mapped for Trello list '" ++ record.card.listId ++ "'"]
    | some _ => []
  let dependsOn := sortStrings (dedupKeepFirst
    ((((record.card.labelIds.filterMap labelIdToName).filter
        (fun name => name != "" && strStartsWith name mapping.dependsOnLabelPfx)).map
      (fun name => name.drop mapping.dependsOnLabelPfx.length)).filter
      (fun name => strJsTrim name != "")))
  let selection := checklists.map
    (fun cls => selectChecklist cls mapping.acceptanceCriteriaChecklistName)
  let acceptanceCriteria := match selection with
    | some sel =>
      match sel.issue with
      | some _ => []
      | none => ((match sel.checklist with
          | some cl => cl.items
          | none => []) : List BoardChecklistItem).map (·.name)
    | none => []
  let selectionIssues := match selection with
    | some sel => match sel.issue with
      | some issue => [issue]
      | none => []
    | none => []
  { story :=
      { id := record.storyId
        title := record.storyTitle
        status := status.getD .open_
        dependsOn := dependsOn
        description := record.card.description
        acceptanceCriteria := acceptanceCriteria }
    issues := statusIssues ++ selectionIssues }

/-!
### Plan data (src/sync-engine.ts:139-204)
-/

inductive SyncCreate
  | trello (id : String) (reason : String) (story : PrdStory)
      (cardInput : BoardCardInput) (checklist : BoardChecklistInput)
  | prd (id : String) (reason : String) (story : PrdStory) (card : BoardCard)
deriving DecidableEq

def SyncCreate.key : SyncCreate → String
  | .trello i _ _ _ _ => i
  | .prd i _ _ _ => i

structure SyncListMove where
  fromId : String
  toId : String
  fromName : Option String
  toName : Option String
deriving DecidableEq

inductive SyncUpdate
  | trello (id : String) (reason : String) (story : PrdStory) (card : BoardCard)
      (cardUpdate : BoardCardUpdate) (checklist : BoardChecklistInput)
      (checklistNeedsUpdate : Bool) (listMove : Option SyncListMove)
  | prd (id : String) (reason : String) (story : PrdStory) (card : BoardCard)
deriving DecidableEq

def SyncUpdate.key : SyncUpdate → String
  | .trello i _ _ _ _ _ _ _ => i
  | .prd i _ _ _ => i

/-- A plan conflict; the source's optional `cards` array is modelled with
`[]` for absent. -/
structure SyncConflict where
  id : Option String
  reason : String
  cards : List BoardCard
  story : Option PrdStory
deriving DecidableEq

/-- Sort key of the final conflict ordering: `left.id ?? left.reason`. -/
def SyncConflict.sortKey (c : SyncConflict) : String := c.id.getD c.reason

structure SyncNoop where
  id : String
  reason : String
deriving DecidableEq

structure SyncPlan where
  creates : List SyncCreate
  updates : List SyncUpdate
  conflicts : List SyncConflict
  noop : List SyncNoop
deriving DecidableEq

/-!
### The planner environment

`buildPlan` consumes the option block plus the four snapshots read from the
adapters, the checklist fetches (`checklistsOf`, the response of
`boardAdapter.getCardChecklists`), and the two foreign functions it treats
as black boxes (`Date.parse` and SHA-256), plus the codec compiled by
`createStoryIdCodec` for the configured mapping (`parseTitle`,
`formatTitle`; the canonical instantiations are `parseCardTitle` and
`formatCardTitle` above).
-/

structure FormatReadResult where
  stories : List PrdStory
  lastModifiedAt : String

structure SyncEnv where
  direction : Option SyncDirection
  mapping : MappingConfig
  conflict : Option ConflictOptions
  incremental : Option Bool
  state : Option SyncState
  dryRun : Option Bool
  prdResult : FormatReadResult
  lists : List BoardList
  cards : List BoardCard
  labels : List BoardLabel
  checklistsOf : String → List BoardChecklist
  dateParse : String → Option Int
  hashText : String → String
  parseTitle : String → StoryIdParseResult
  formatTitle : String → String → String

namespace SyncEnv

/-- `options.direction ?? "two-way"`. -/
def dir (env : SyncEnv) : SyncDirection := env.direction.getD .two_way

/-- `options.state && options.incremental !== false ? options.state : null`. -/
def incrementalState (env : SyncEnv) : Option SyncState :=
  match env.state, env.incremental with
  | some _, some false => none
  | some st, _ => some st
  | none, _ => none

def conflictPrefer (env : SyncEnv) : ConflictPrefer :=
  resolveConflictPrefer env.conflict

def createMissing (env : SyncEnv) : Bool :=
  resolveCreateMissingLabels env.conflict

def statusMapping (env : SyncEnv) : StatusMappingResult :=
  createStatusMapping env.lists env.mapping.statusToList

def listIdToName (env : SyncEnv) : String → Option String :=
  mapGet (env.lists.map (fun l => (l.id, l.name)))

def labelNameToId (env : SyncEnv) : String → Option String :=
  mapGet (env.labels.map (fun l => (l.name, l.id)))

def labelIdToName (env : SyncEnv) : String → Option String :=
  mapGet (env.labels.map (fun l => (l.id, l.name)))

/-- `storyFingerprints` map (last write wins on duplicate ids). -/
def storyFingerprints (env : SyncEnv) : String → Option String :=
  mapGet (env.prdResult.stories.map
    (fun s => (s.id, createStoryFingerprint env.hashText s)))

/-- `prdById` (first write wins: later duplicates are skipped). -/
def prdById (env : SyncEnv) (key : String) : Option PrdStory :=
  env.prdResult.stories.find? (fun s => s.id == key)

def duplicateStoryIds (env : SyncEnv) : List String :=
  dupKeys (env.prdResult.stories.map (·.id))

/-- Cards whose titles parse, as `CardRecord`s, in board order. -/
def cardRecords (env : SyncEnv) : List CardRecord :=
  env.cards.filterMap (fun card =>
    match env.parseTitle card.name with
    | .ok pid ptitle => some ⟨card, pid, ptitle⟩
    | _ => none)

/-- One conflict per unparsable card title, in board order. -/
def parseConflicts (env : SyncEnv) : List SyncConflict :=
  env.cards.filterMap (fun card =>
    match env.parseTitle card.name with
    | .ok _ _ => none
    | .missing reason _ _ => some ⟨none, reason, [card], none⟩
    | .ambiguous reason _ _ => some ⟨none, reason, [card], none⟩)

end SyncEnv

/-- `cardRecordsById` grouping: keys in first-occurrence order, each bucket
in board order. -/
def groupByStoryId (records : List CardRecord) : List (String × List CardRecord) :=
  (dedupKeepFirst (records.map (·.storyId))).map
    (fun key => (key, records.filter (fun r => r.storyId == key)))

namespace SyncEnv

def duplicateCardIds (env : SyncEnv) : List String :=
  ((groupByStoryId env.cardRecords).filter (fun g => g.2.length > 1)).map (·.1)

def duplicateCardConflicts (env : SyncEnv) : List SyncConflict :=
  (groupByStoryId env.cardRecords).filterMap (fun g =>
    if g.2.length > 1 then
      some ⟨some g.1, "Duplicate story ID across Trello cards",
        g.2.map (·.card), none⟩
    else none)

def uniqueCardRecords (env : SyncEnv) : List CardRecord :=
  (groupByStoryId env.cardRecords).filterMap (fun g =>
    if g.2.length > 1 then none else g.2.head?)

def conflictedIds (env : SyncEnv) : List String :=
  env.duplicateStoryIds ++ env.duplicateCardIds

def recordById (env : SyncEnv) : String → Option CardRecord :=
  mapGet (env.uniqueCardRecords.map (fun r => (r.storyId, r)))

/-- `isStoryUnchanged` (src/sync-engine.ts:746-755). -/
def isStoryUnchanged (env : SyncEnv) (story : PrdStory) : Bool :=
  match env.incrementalState with
  | none => false
  | some st =>
    match mapGet st.storyIndex story.id with
    | none => false
    | some previous =>
      match env.storyFingerprints story.id with
      | some fp => previous.fingerprint == fp
      | none => false

/-- `isCardUnchanged` (src/sync-engine.ts:757-769). -/
def isCardUnchanged (env : SyncEnv) (record : CardRecord) : Bool :=
  match env.incrementalState with
  | none => false
  | some st =>
    match mapGet st.cardIndex record.storyId with
    | none => false
    | some previous =>
      previous.cardId == record.card.id &&
      previous.lastActivityAt == record.card.lastActivityAt

/-- `checklistTargets` (src/sync-engine.ts:771-783): the unique card records
whose checklists the planner fetches. -/
def checklistTargets (env : SyncEnv) : List CardRecord :=
  env.uniqueCardRecords.filter (fun record =>
    match env.prdById record.storyId with
    | none => env.dir != .prd_to_trello
    | some story =>
      match env.incrementalState with
      | none => true
      | some _ => !(env.isStoryUnchanged story && env.isCardUnchanged record))

/-- `checklistByCardId`: present exactly for fetched targets. -/
def checklistByCardId (env : SyncEnv) (cardId : String) :
    Option (List BoardChecklist) :=
  if env.checklistTargets.any (fun r => r.card.id == cardId) then
    some (env.checklistsOf cardId)
  else none

def statusIssueConflicts (env : SyncEnv) : List SyncConflict :=
  env.statusMapping.issues.map (fun issue => ⟨none, issue, [], none⟩)

def duplicateStoryConflicts (env : SyncEnv) : List SyncConflict :=
  env.duplicateStoryIds.map
    (fun i => ⟨some i, "Duplicate story ID in PRD stories", [], none⟩)

/-- The sorted id universe of the main loop. -/
def sortedIds (env : SyncEnv) : List String :=
  sortStrings (dedupKeepFirst
    (env.prdResult.stories.map (·.id) ++ env.uniqueCardRecords.map (·.storyId)))

/-- `resolveListMove` (src/sync-engine.ts:813-826). -/
def resolveListMove (env : SyncEnv) (record : CardRecord)
    (cardUpdate : BoardCardUpdate) : Option SyncListMove :=
  match cardUpdate.listId with
  | none => none
  | some toId =>
      if toId == "" then none
      else some
        { fromId := record.card.listId
          toId := toId
          fromName := env.listIdToName record.card.listId
          toName := env.listIdToName toId }

end SyncEnv

/-- `applyMissingLabelIssues` (src/sync-engine.ts:650-656). -/
def applyMissingLabelIssues (createMissing : Bool) (m : CardMappingResult) :
    CardMappingResult :=
  if !createMissing && m.missingLabels.length > 0 then
    { m with issues := m.issues ++
        ["Missing Trello labels: " ++ String.intercalate ", " m.missingLabels] }
  else m

namespace SyncEnv

/-- The card-side mapping computed for a matched pair in the main loop. -/
def pairCardMapping (env : SyncEnv) (story : PrdStory) (record : CardRecord) :
    CardMappingResult :=
  applyMissingLabelIssues env.createMissing
    (buildCardMapping story env.mapping env.statusMapping env.labelNameToId
      env.labelIdToName env.formatTitle (some record.card)
      (env.checklistByCardId record.card.id))

/-- The story-side mapping computed for a matched pair in the main loop. -/
def pairStoryMapping (env : SyncEnv) (record : CardRecord) : StoryMappingResult :=
  buildStoryMapping record env.mapping env.statusMapping env.labelIdToName
    (env.checklistByCardId record.card.id)

def pairShouldCreateMissingLabels (env : SyncEnv) (story : PrdStory)
    (record : CardRecord) : Bool :=
  env.createMissing && (env.pairCardMapping story record).missingLabels.length > 0

/-- The card update after the missing-label backfill
(src/sync-engine.ts:955-959). -/
def pairCardUpdate (env : SyncEnv) (story : PrdStory) (record : CardRecord) :
    BoardCardUpdate :=
  let cm := env.pairCardMapping story record
  if env.pairShouldCreateMissingLabels story record ∧ cm.cardUpdate.labelIds = none then
    { cm.cardUpdate with labelIds := some cm.cardInput.labelIds }
  else cm.cardUpdate

def pairCanUpdateCard (env : SyncEnv) (story : PrdStory) (record : CardRecord) :
    Bool := (env.pairCardMapping story record).issues.length == 0

def pairCanUpdateStory (env : SyncEnv) (record : CardRecord) : Bool :=
  (env.pairStoryMapping record).issues.length == 0

def pairNeedsCardUpdate (env : SyncEnv) (story : PrdStory) (record : CardRecord) :
    Bool :=
  env.pairCanUpdateCard story record &&
  (hasUpdateFields (env.pairCardUpdate story record) ||
   (env.pairCardMapping story record).checklistNeedsUpdate ||
   env.pairShouldCreateMissingLabels story record)

def pairNeedsStoryUpdate (env : SyncEnv) (story : PrdStory) (record : CardRecord) :
    Bool :=
  env.pairCanUpdateStory record &&
  !(storiesEquivalent story (env.pairStoryMapping record).story)

end SyncEnv

/-- One classification outcome of the main loop (each loop iteration pushes
at most one entry into one plan bucket). -/
inductive SyncDecision
  | skip
  | createEntry (c : SyncCreate)
  | updateEntry (u : SyncUpdate)
  | conflictEntry (c : SyncConflict)
  | noopEntry (n : SyncNoop)
deriving DecidableEq

namespace SyncEnv

/-- The card mapping computed for a PRD-only story (no card, no checklists). -/
def storyOnlyMapping (env : SyncEnv) (story : PrdStory) : CardMappingResult :=
  applyMissingLabelIssues env.createMissing
    (buildCardMapping story env.mapping env.statusMapping env.labelNameToId
      env.labelIdToName env.formatTitle none none)

/-- Loop body for a PRD-only story (src/sync-engine.ts:835-876). -/
def classifyStoryOnly (env : SyncEnv) (id : String) (story : PrdStory) :
    SyncDecision :=
  if env.dir = .trello_to_prd then
    .noopEntry ⟨id, "PRD-only story ignored"⟩
  else if (env.storyOnlyMapping story).issues.length > 0 then
    .conflictEntry ⟨some id,
      String.intercalate "; " (env.storyOnlyMapping story).issues, [], some story⟩
  else
    .createEntry (.trello id "PRD story missing in Trello" story
      (env.storyOnlyMapping story).cardInput (env.storyOnlyMapping story).checklist)

/-- The story mapping computed for a Trello-only card. -/
def cardOnlyMapping (env : SyncEnv) (record : CardRecord) : StoryMappingResult :=
  buildStoryMapping record env.mapping env.statusMapping env.labelIdToName
    (env.checklistByCardId record.card.id)

/-- Loop body for a Trello-only card (src/sync-engine.ts:878-917). -/
def classifyCardOnly (env : SyncEnv) (id : String) (record : CardRecord) :
    SyncDecision :=
  if env.dir = .prd_to_trello then
    .noopEntry ⟨id, "Trello-only card ignored"⟩
  else if (env.cardOnlyMapping record).issues.length > 0 then
    .conflictEntry ⟨some id,
      String.intercalate "; " (env.cardOnlyMapping record).issues,
      [record.card], none⟩
  else
    .createEntry (.prd id "Trello card missing in PRD"
      (env.cardOnlyMapping record).story record.card)

/-- The `unchanged` short-circuit gate (src/sync-engine.ts:923-933). -/
def pairUnchangedGate (env : SyncEnv) (story : PrdStory) (record : CardRecord) :
    Bool :=
  match env.incrementalState with
  | some _ => env.isStoryUnchanged story && env.isCardUnchanged record
  | none => false

def pairTimestampComparison (env : SyncEnv) (record : CardRecord) : Int :=
  compareIsoTimestamps env.dateParse env.prdResult.lastModifiedAt
    record.card.lastActivityAt

def pairResolvedComparison (env : SyncEnv) (record : CardRecord) : Int :=
  resolveTimestampComparison (env.pairTimestampComparison record)
    env.conflictPrefer

/-- The reason string of a timestamp-decided update
(src/sync-engine.ts:1100-1106). -/
def pairReason (env : SyncEnv) (record : CardRecord) : String :=
  if env.pairTimestampComparison record = 0 then
    (if env.pairResolvedComparison record > 0 then
      "PRD preferred over Trello (equal timestamps)"
     else "Trello preferred over PRD (equal timestamps)")
  else
    (if env.pairResolvedComparison record > 0 then "PRD newer than Trello"
     else "Trello newer than PRD")

/-- The board-targeting update entry emitted for a pair. -/
def pairTrelloUpdate (env : SyncEnv) (id : String) (story : PrdStory)
    (record : CardRecord) (reason : String) : SyncUpdate :=
  .trello id reason story record.card (env.pairCardUpdate story record)
    (env.pairCardMapping story record).checklist
    (env.pairCardMapping story record).checklistNeedsUpdate
    (env.resolveListMove record (env.pairCardUpdate story record))

/-- The document-targeting update entry emitted for a pair. -/
def pairPrdUpdate (env : SyncEnv) (id : String) (record : CardRecord)
    (reason : String) : SyncUpdate :=
  .prd id reason (env.pairStoryMapping record).story record.card

/-- Loop body for a matched pair (src/sync-engine.ts:923-1156). -/
def classifyPair (env : SyncEnv) (id : String) (story : PrdStory)
    (record : CardRecord) : SyncDecision :=
  if env.pairUnchangedGate story record then
    .noopEntry ⟨id, "Unchanged since last sync"⟩
  else if !env.pairNeedsCardUpdate story record &&
      !env.pairNeedsStoryUpdate story record then
    .noopEntry ⟨id, "Story and card in sync"⟩
  else
    match env.dir with
    | .prd_to_trello =>
      if !env.pairCanUpdateCard story record then
        .conflictEntry ⟨some id,
          String.intercalate "; " (env.pairCardMapping story record).issues,
          [], some story⟩
      else if env.pairNeedsCardUpdate story record then
        .updateEntry (env.pairTrelloUpdate id story record "PRD update required")
      else .noopEntry ⟨id, "No PRD-to-Trello change needed"⟩
    | .trello_to_prd =>
      if !env.pairCanUpdateStory record then
        .conflictEntry ⟨some id,
          String.intercalate "; " (env.pairStoryMapping record).issues,
          [record.card], none⟩
      else if env.pairNeedsStoryUpdate story record then
        .updateEntry (env.pairPrdUpdate id record "Trello update required")
      else .noopEntry ⟨id, "No Trello-to-PRD change needed"⟩
    | .two_way =>
      if env.pairNeedsCardUpdate story record &&
          !env.pairNeedsStoryUpdate story record then
        .updateEntry (env.pairTrelloUpdate id story record "PRD update required")
      else if env.pairNeedsStoryUpdate story record &&
          !env.pairNeedsCardUpdate story record then
        .updateEntry (env.pairPrdUpdate id record "Trello update required")
      else if env.pairResolvedComparison record = 0 then
        .conflictEntry ⟨some id,
          "PRD and Trello updates conflict (equal timestamps)",
          [record.card], some story⟩
      else if env.pairResolvedComparison record > 0 then
        if !env.pairCanUpdateCard story record then
          .conflictEntry ⟨some id,
            String.intercalate "; " (env.pairCardMapping story record).issues,
            [], some story⟩
        else
          .updateEntry (env.pairTrelloUpdate id story record
            (env.pairReason record))
      else if !env.pairCanUpdateStory record then
        .conflictEntry ⟨some id,
          String.intercalate "; " (env.pairStoryMapping record).issues,
          [record.card], none⟩
      else
        .updateEntry (env.pairPrdUpdate id record (env.pairReason record))

/-- One iteration of the main loop over `sortedIds`. -/
def classifyId (env : SyncEnv) (id : String) : SyncDecision :=
  if env.conflictedIds.contains id then .skip
  else
    match env.prdById id, env.recordById id with
    | some story, none => env.classifyStoryOnly id story
    | none, some record => env.classifyCardOnly id record
    | some story, some record => env.classifyPair id story record
    | none, none => .skip

end SyncEnv

def decisionCreate : SyncDecision → Option SyncCreate
  | .createEntry c => some c
  | _ => none

def decisionUpdate : SyncDecision → Option SyncUpdate
  | .updateEntry u => some u
  | _ => none

def decisionConflict : SyncDecision → Option SyncConflict
  | .conflictEntry c => some c
  | _ => none

def decisionNoop : SyncDecision → Option SyncNoop
  | .noopEntry n => some n
  | _ => none

/-- `SyncEngine.buildPlan` (src/sync-engine.ts:628-1178): the conflicts
accumulated before the loop, the per-id classifications, and the final
per-bucket sorts. -/
def buildPlan (env : SyncEnv) : SyncPlan :=
  let initialConflicts := env.statusIssueConflicts ++
    env.duplicateStoryConflicts ++ env.parseConflicts ++
    env.duplicateCardConflicts
  let decisions := env.sortedIds.map env.classifyId
  { creates := sortByKey SyncCreate.key (decisions.filterMap decisionCreate)
    updates := sortByKey SyncUpdate.key (decisions.filterMap decisionUpdate)
    conflicts := sortByKey SyncConflict.sortKey
      (initialConflicts ++ decisions.filterMap decisionConflict)
    noop := sortByKey SyncNoop.id (decisions.filterMap decisionNoop) }

/-!
### State-file orchestration (src/sync-with-state.ts and
`SyncEngine.syncWithState`, src/sync-engine.ts:610-626)
-/

/-- Observable write effects of one `syncWithStateFile` run, in order. -/
inductive SyncEvent
  | appliedPlan
  | savedState
deriving DecidableEq

/-- `shouldSkipApply` in `SyncEngine.syncWithState`: a dry run, or
`blockWrites` with at least one conflict, skips plan application. -/
def shouldSkipApply (env : SyncEnv) (plan : SyncPlan) : Bool :=
  env.dryRun.getD false ||
  ((env.conflict.bind (·.blockWrites)).getD false && plan.conflicts.length > 0)

/-- The effect trace of `syncWithStateFile` (src/sync-with-state.ts:22-67):
the engine applies the plan unless `shouldSkipApply`; afterwards
`saveSyncState` runs whenever the run is not a dry run.  The contents of the
applied plan and saved state do not affect which effects occur and are
elided. -/
def syncWithStateFileEvents (env : SyncEnv) : List SyncEvent :=
  let plan := buildPlan env
  (if shouldSkipApply env plan then [] else [.appliedPlan]) ++
  (if env.dryRun.getD false then [] else [.savedState])

/-!
### General planner lemmas
-/

/-- The single identifier a loop decision is keyed by (if any). -/
def SyncDecision.keyOf : SyncDecision → Option String
  | .skip => none
  | .createEntry c => some c.key
  | .updateEntry u => some u.key
  | .conflictEntry c => c.id
  | .noopEntry n => some n.id

/-- The canonical mapping configuration of the repository's tests. -/
def canonicalMapping : MappingConfig :=
  { storyPfx := "US", idPattern := "\x7bprefix\x7d-\x7bnumber:3\x7d",
    cardTitleFormat := "[{id}] {title}",
    statusToList := ⟨"To Do", "In Progress", "Done"⟩,
    dependsOnLabelPfx := "depends-on:",
    acceptanceCriteriaChecklistName := "Acceptance Criteria" }

/-- A run with `blockWrites` set, at least one conflict, and `dryRun` false:
application is suppressed, yet `syncWithStateFile` still saves the state
file. -/
def envC8 : SyncEnv :=
  { direction := some .two_way, mapping := canonicalMapping,
    conflict := some { blockWrites := some true },
    incremental := none, state := none, dryRun := some false,
    prdResult := { stories := [], lastModifiedAt := "2026-01-20T00:00:00Z" },
    lists := [], cards := [], labels := [], checklistsOf := fun _ => [],
    dateParse := fun _ => none, hashText := fun s => s,
    parseTitle := parseCardTitle,
    formatTitle := fun i t => (formatCardTitle i t).getD "" }

/-!
### Status-to-list mapping (C6)
-/

/-- The list name bound to a status by the mapping configuration. -/
def statusBoundName (stl : StatusToList) : StoryStatus → String
  | .open_ => stl.open_
  | .in_progress => stl.in_progress
  | .done => stl.done

/-!
### Concrete witness environments
-/

def storyC1 : PrdStory :=
  { id := "US-001", title := "Alpha", status := .open_, dependsOn := [],
    description := "D", acceptanceCriteria := [] }

def cardC1 : BoardCard :=
  { id := "card-1", name := "[US-001] Beta", description := "D",
    listId := "list-open", labelIds := [], closed := false,
    lastActivityAt := "2026-01-20T00:00:00Z" }

def recordC1 : CardRecord := ⟨cardC1, "US-001", "Beta"⟩

def boardListsC1 : List BoardList :=
  [⟨"list-open", "To Do", false⟩, ⟨"list-progress", "In Progress", false⟩,
   ⟨"list-done", "Done", false⟩]

/-- A two-way run, preference `none`, one story and its matched card whose
titles diverge, with equal parseable timestamps on both sides. -/
def envC1 : SyncEnv :=
  { direction := some .two_way, mapping := canonicalMapping,
    conflict := some { prefer := some .none_ },
    incremental := none, state := none, dryRun := none,
    prdResult := { stories := [storyC1],
                   lastModifiedAt := "2026-01-20T00:00:00Z" },
    lists := boardListsC1, cards := [cardC1], labels := [],
    checklistsOf := fun _ => [],
    dateParse := fun s => if s = "2026-01-20T00:00:00Z" then some 100 else none,
    hashText := fun s => s, parseTitle := parseCardTitle,
    formatTitle := fun i t => (formatCardTitle i t).getD "" }

def cardC10 : BoardCard := { cardC1 with lastActivityAt := "not-a-date" }

def recordC10 : CardRecord := ⟨cardC10, "US-001", "Beta"⟩

/-- Like `envC1` but preferring PRD, with an unparseable card timestamp. -/
def envC10 : SyncEnv :=
  { envC1 with conflict := some { prefer := some .prd }, cards := [cardC10] }

def cardC2a : BoardCard := { cardC1 with id := "card-1", name := "[US-001] First" }

def cardC2b : BoardCard := { cardC1 with id := "card-2", name := "[US-001] Second" }

/-- Both sides duplicate `US-001`: two PRD stories and two parsed cards. -/
def envC2 : SyncEnv :=
  { envC1 with
    prdResult := { stories := [storyC1, { storyC1 with title := "Alpha2" }],
                   lastModifiedAt := "2026-01-20T00:00:00Z" },
    cards := [cardC2a, cardC2b] }

def stC3 : SyncState :=
  { storyIndex := [("US-001", ⟨createStoryFingerprint (fun s => s) storyC1⟩)],
    cardIndex := [("US-001", ⟨"card-1", "2026-01-20T00:00:00Z"⟩)] }

/-- `envC1` with incremental state recording the current fingerprints. -/
def envC3 : SyncEnv := { envC1 with state := some stC3 }

/-!
### Theorems
-/

theorem lexLe_total (a b : List Char) : lexLe a b = true ∨ lexLe b a = true := by
  induction a generalizing b with
  | nil => exact Or.inl rfl
  | cons x xs ih =>
    cases b with
    | nil => exact Or.inr rfl
    | cons y ys =>
      by_cases hxy : x = y
      · subst hxy
        simpa [lexLe] using ih ys
      · rcases lt_trichotomy x y with h | h | h
        · left; simp [lexLe, hxy, h]
        · exact absurd h hxy
        · right; simp [lexLe, Ne.symm hxy, h]

theorem lexLe_antisymm {a b : List Char} (hab : lexLe a b = true)
    (hba : lexLe b a = true) : a = b := by
  induction a generalizing b with
  | nil =>
    cases b with
    | nil => rfl
    | cons y ys => simp [lexLe] at hba
  | cons x xs ih =>
    cases b with
    | nil => simp [lexLe] at hab
    | cons y ys =>
      by_cases hxy : x = y
      · subst hxy
        simp only [lexLe, if_pos rfl] at hab hba
        exact congrArg (x :: ·) (ih hab hba)
      · simp only [lexLe, if_neg hxy, decide_eq_true_eq] at hab
        simp only [lexLe, if_neg (Ne.symm hxy), decide_eq_true_eq] at hba
        exact absurd (lt_trans hab hba) (lt_irrefl x)

theorem lexLe_trans {a b c : List Char} (hab : lexLe a b = true)
    (hbc : lexLe b c = true) : lexLe a c = true := by
  induction a generalizing b c with
  | nil => rfl
  | cons x xs ih =>
    cases b with
    | nil => simp [lexLe] at hab
    | cons y ys =>
      cases c with
      | nil => simp [lexLe] at hbc
      | cons z zs =>
        by_cases hxy : x = y <;> by_cases hyz : y = z
        · subst hxy; subst hyz
          simp only [lexLe, if_pos rfl] at hab hbc ⊢
          exact ih hab hbc
        · subst hxy
          simp only [lexLe, if_pos rfl] at hab
          simp only [lexLe, if_neg hyz, decide_eq_true_eq] at hbc ⊢
          exact hbc
        · subst hyz
          simp only [lexLe, if_pos rfl] at hbc
          simp only [lexLe, if_neg hxy, decide_eq_true_eq] at hab ⊢
          exact hab
        · simp only [lexLe, if_neg hxy, decide_eq_true_eq] at hab
          simp only [lexLe, if_neg hyz, decide_eq_true_eq] at hbc
          have hxz : x < z := lt_trans hab hbc
          simp [lexLe, ne_of_lt hxz, hxz]

theorem strLe_total (a b : String) : strLe a b = true ∨ strLe b a = true :=
  lexLe_total a.data b.data

theorem strLe_antisymm {a b : String} (hab : strLe a b = true)
    (hba : strLe b a = true) : a = b := by
  cases a; cases b
  exact congrArg String.mk (lexLe_antisymm hab hba)

theorem strLe_trans {a b c : String} (hab : strLe a b = true)
    (hbc : strLe b c = true) : strLe a c = true :=
  lexLe_trans hab hbc

theorem insertByKey_perm {α : Type} (key : α → String) (x : α) (l : List α) :
    List.Perm (insertByKey key x l) (x :: l) := by
  induction l with
  | nil => simp [insertByKey]
  | cons y ys ih =>
    by_cases h : strLe (key x) (key y) = true
    · simp [insertByKey, h]
    · rw [insertByKey, if_neg h]
      exact List.Perm.trans (List.Perm.cons y ih) (List.Perm.swap x y ys)

theorem sortByKey_perm {α : Type} (key : α → String) (l : List α) :
    List.Perm (sortByKey key l) l := by
  induction l with
  | nil => simp [sortByKey]
  | cons x xs ih =>
    exact List.Perm.trans (insertByKey_perm key x (sortByKey key xs))
      (List.Perm.cons x ih)

theorem insertByKey_sorted {α : Type} (key : α → String) (x : α) {l : List α}
    (h : KeySorted key l) : KeySorted key (insertByKey key x l) := by
  induction l with
  | nil => simp [insertByKey, KeySorted]
  | cons y ys ih =>
    rcases List.pairwise_cons.mp h with ⟨hy, hys⟩
    by_cases hxy : strLe (key x) (key y) = true
    · rw [insertByKey, if_pos hxy]
      refine List.pairwise_cons.mpr ⟨?_, h⟩
      intro b hb
      rcases List.mem_cons.mp hb with hb | hb
      · exact hb ▸ hxy
      · exact strLe_trans hxy (hy b hb)
    · have hyx : strLe (key y) (key x) = true :=
        (strLe_total (key x) (key y)).resolve_left hxy
      rw [insertByKey, if_neg hxy]
      refine List.pairwise_cons.mpr ⟨?_, ih hys⟩
      intro b hb
      rcases List.mem_cons.mp ((insertByKey_perm key x ys).mem_iff.mp hb) with hmem | hmem
      · exact hmem ▸ hyx
      · exact hy b hmem

theorem sortByKey_sorted {α : Type} (key : α → String) (l : List α) :
    KeySorted key (sortByKey key l) := by
  induction l with
  | nil => simp [sortByKey, KeySorted]
  | cons x xs ih => exact insertByKey_sorted key x ih

theorem sortStrings_perm (l : List String) : List.Perm (sortStrings l) l :=
  sortByKey_perm id l

theorem sortStrings_sorted (l : List String) : KeySorted id (sortStrings l) :=
  sortByKey_sorted id l

theorem mem_sortStrings {l : List String} {x : String} :
    x ∈ sortStrings l ↔ x ∈ l := (sortStrings_perm l).mem_iff

/-- Two key-sorted permutations of each other whose keys determine the
elements are equal; specialised to plain string lists. -/
theorem keySorted_eq_of_perm {α : Type} {key : α → String} {l₁ l₂ : List α}
    (hinj : ∀ a ∈ l₁, ∀ b ∈ l₂, key a = key b → a = b)
    (hperm : List.Perm l₁ l₂) (h₁ : KeySorted key l₁) (h₂ : KeySorted key l₂) :
    l₁ = l₂ := by
  induction l₁ generalizing l₂ with
  | nil => exact (List.Perm.nil_eq hperm).symm ▸ rfl
  | cons a as ih =>
    cases l₂ with
    | nil => exact absurd hperm.symm (by simp)
    | cons b bs =>
      rcases List.pairwise_cons.mp h₁ with ⟨ha, has⟩
      rcases List.pairwise_cons.mp h₂ with ⟨hb, hbs⟩
      have hab : a = b := by
        have hbmem : b ∈ a :: as := hperm.mem_iff.mpr (List.mem_cons_self b bs)
        have hamem : a ∈ b :: bs := hperm.mem_iff.mp (List.mem_cons_self a as)
        rcases List.mem_cons.mp hbmem with h | h
        · exact h.symm
        · rcases List.mem_cons.mp hamem with h' | h'
          · exact h'
          · have h1 : strLe (key a) (key b) = true := ha b h
            have h2 : strLe (key b) (key a) = true := hb a h'
            exact hinj a (List.mem_cons_self a as) b (List.mem_cons_self b bs)
              (strLe_antisymm h1 h2)
      subst hab
      have hperm' : List.Perm as bs := (List.perm_cons a).mp hperm
      have : as = bs := by
        refine ih ?_ hperm' has hbs
        intro u hu v hv
        exact hinj u (List.mem_cons_of_mem a hu) v (List.mem_cons_of_mem a hv)
      rw [this]

/-- Two key-sorted permutations of each other whose keys determine the
elements are equal; specialised to plain string lists. -/
theorem sortStrings_eq_of_perm {l₁ l₂ : List String} (h : List.Perm l₁ l₂) :
    sortStrings l₁ = sortStrings l₂ := by
  have hperm : List.Perm (sortStrings l₁) (sortStrings l₂) :=
    ((sortStrings_perm l₁).trans h).trans (sortStrings_perm l₂).symm
  exact keySorted_eq_of_perm (fun a _ b _ hab => hab) hperm
    (sortStrings_sorted l₁) (sortStrings_sorted l₂)

theorem strLe_refl (a : String) : strLe a a = true := by
  rcases strLe_total a a with h | h <;> exact h

theorem sortStrings_nodup {l : List String} (h : l.Nodup) :
    (sortStrings l).Nodup := ((sortStrings_perm l).nodup_iff).mpr h

/-- First element of a sorted list is a lower bound for every element. -/
theorem sortStrings_head_le {l : List String} {x y : String}
    (hhead : (sortStrings l).head? = some x) (hy : y ∈ l) : strLe x y = true := by
  cases hsort : sortStrings l with
  | nil => rw [hsort] at hhead; cases hhead
  | cons a rest =>
    rw [hsort] at hhead
    injection hhead with hax
    subst hax
    have hmem : y ∈ sortStrings l := mem_sortStrings.mpr hy
    rw [hsort] at hmem
    rcases List.mem_cons.mp hmem with h | h
    · subst h
      exact strLe_refl _
    · have := sortStrings_sorted l
      rw [hsort] at this
      exact (List.pairwise_cons.mp this).1 y h

theorem mem_dedupFirstAux {seen l : List String} {x : String} :
    x ∈ dedupFirstAux seen l ↔ x ∈ l ∧ x ∉ seen := by
  induction l generalizing seen with
  | nil => simp [dedupFirstAux]
  | cons y ys ih =>
    by_cases hy : y ∈ seen
    · rw [dedupFirstAux, if_pos (List.elem_iff.mpr hy), ih]
      constructor
      · rintro ⟨hmem, hns⟩
        exact ⟨List.mem_cons_of_mem y hmem, hns⟩
      · rintro ⟨hmem, hns⟩
        rcases List.mem_cons.mp hmem with h | h
        · exact absurd (h ▸ hy) hns
        · exact ⟨h, hns⟩
    · rw [dedupFirstAux, if_neg (fun hc => hy (List.elem_iff.mp hc))]
      constructor
      · intro hmem
        rcases List.mem_cons.mp hmem with h | h
        · subst h
          exact ⟨List.mem_cons_self x ys, hy⟩
        · rcases ih.mp h with ⟨hmem2, hns⟩
          have hxy : x ≠ y := fun he => hns (he ▸ List.mem_cons_self y seen)
          have hxs : x ∉ seen := fun hc => hns (List.mem_cons_of_mem y hc)
          exact ⟨List.mem_cons_of_mem y hmem2, hxs⟩
      · rintro ⟨hmem, hns⟩
        rcases List.mem_cons.mp hmem with h | h
        · subst h
          exact List.mem_cons_self x _
        · by_cases hxy : x = y
          · subst hxy
            exact List.mem_cons_self x _
          · refine List.mem_cons_of_mem y (ih.mpr ⟨h, ?_⟩)
            intro hc
            rcases List.mem_cons.mp hc with hc | hc
            · exact hxy hc
            · exact hns hc

theorem mem_dedupKeepFirst {l : List String} {x : String} :
    x ∈ dedupKeepFirst l ↔ x ∈ l := by
  unfold dedupKeepFirst
  rw [mem_dedupFirstAux]
  simp

theorem dedupFirstAux_nodup (seen l : List String) :
    (dedupFirstAux seen l).Nodup := by
  induction l generalizing seen with
  | nil => simp [dedupFirstAux]
  | cons y ys ih =>
    by_cases hy : seen.contains y = true
    · rw [dedupFirstAux, if_pos hy]
      exact ih seen
    · rw [dedupFirstAux, if_neg hy]
      refine List.nodup_cons.mpr ⟨?_, ih (y :: seen)⟩
      intro hmem
      exact (mem_dedupFirstAux.mp hmem).2 (List.mem_cons_self y seen)

theorem dedupKeepFirst_nodup (l : List String) : (dedupKeepFirst l).Nodup :=
  dedupFirstAux_nodup [] l

theorem mem_dupKeysAux {seen dups l : List String} {x : String} :
    x ∈ dupKeysAux seen dups l ↔
      x ∉ dups ∧ 2 ≤ l.count x + (if x ∈ seen then 1 else 0) := by
  induction l generalizing seen dups with
  | nil =>
    simp only [dupKeysAux, List.not_mem_nil, false_iff, not_and, not_le,
      List.count_nil, Nat.zero_add]
    intro _
    split <;> omega
  | cons y ys ih =>
    by_cases hxy : x = y
    · subst hxy
      have hcount : (x :: ys).count x = ys.count x + 1 := by
        simp [List.count_cons]
      by_cases hseen : x ∈ seen
      · by_cases hdup : x ∈ dups
        · rw [dupKeysAux, if_pos (List.elem_iff.mpr hseen),
            if_pos (List.elem_iff.mpr hdup), ih]
          constructor
          · rintro ⟨hnd, _⟩
            exact absurd hdup hnd
          · rintro ⟨hnd, _⟩
            exact absurd hdup hnd
        · rw [dupKeysAux, if_pos (List.elem_iff.mpr hseen),
            if_neg (fun hc => hdup (List.elem_iff.mp hc))]
          simp only [List.mem_cons, true_or, true_iff]
          refine ⟨hdup, ?_⟩
          rw [hcount, if_pos hseen]
          omega
      · rw [dupKeysAux, if_neg (fun hc => hseen (List.elem_iff.mp hc)), ih,
          if_pos (List.mem_cons_self x seen), hcount, if_neg hseen,
          Nat.add_zero]
    · have hcount : (y :: ys).count x = ys.count x := by
        have : ¬ (y == x) = true := by
          simpa using fun he => hxy he.symm
        simp [List.count_cons, this]
      by_cases hseen : y ∈ seen
      · by_cases hdup : y ∈ dups
        · rw [dupKeysAux, if_pos (List.elem_iff.mpr hseen),
            if_pos (List.elem_iff.mpr hdup), ih, hcount]
        · rw [dupKeysAux, if_pos (List.elem_iff.mpr hseen),
            if_neg (fun hc => hdup (List.elem_iff.mp hc))]
          simp only [List.mem_cons, hxy, false_or, ih, hcount]
      · have hiff : (x ∈ y :: seen) ↔ (x ∈ seen) := by
          simp [List.mem_cons, hxy]
        rw [dupKeysAux, if_neg (fun hc => hseen (List.elem_iff.mp hc)), ih,
          if_congr hiff rfl rfl, hcount]

theorem mem_dupKeys {l : List String} {x : String} :
    x ∈ dupKeys l ↔ 2 ≤ l.count x := by
  unfold dupKeys
  rw [mem_dupKeysAux]
  simp

theorem dupKeysAux_nodup (seen dups l : List String) :
    (dupKeysAux seen dups l).Nodup := by
  induction l generalizing seen dups with
  | nil => simp [dupKeysAux]
  | cons y ys ih =>
    by_cases hseen : seen.contains y = true
    · by_cases hdup : dups.contains y = true
      · rw [dupKeysAux, if_pos hseen, if_pos hdup]
        exact ih seen dups
      · rw [dupKeysAux, if_pos hseen, if_neg hdup]
        refine List.nodup_cons.mpr ⟨?_, ih seen (y :: dups)⟩
        intro hmem
        exact (mem_dupKeysAux.mp hmem).1 (List.mem_cons_self y dups)
    · rw [dupKeysAux, if_neg hseen]
      exact ih (y :: seen) dups

theorem dupKeys_nodup (l : List String) : (dupKeys l).Nodup :=
  dupKeysAux_nodup [] [] l

theorem mapGet_eq_some_mem {κ α : Type} [BEq κ] [LawfulBEq κ]
    {entries : List (κ × α)} {key : κ}
    {v : α} (h : mapGet entries key = some v) : (key, v) ∈ entries := by
  unfold mapGet at h
  rcases Option.map_eq_some'.mp h with ⟨e, hfind, hv⟩
  have hmem : e ∈ entries := List.mem_reverse.mp (List.mem_of_find?_eq_some hfind)
  have hkey : e.1 = key := by simpa using List.find?_some hfind
  have : e = (key, v) := by
    cases e
    simp only at hkey hv
    rw [hkey, hv]
  exact this ▸ hmem

theorem mapGet_isSome_of_mem {κ α : Type} [BEq κ] [LawfulBEq κ]
    {entries : List (κ × α)} {key : κ}
    {v : α} (h : (key, v) ∈ entries) : (mapGet entries key).isSome := by
  unfold mapGet
  rw [Option.isSome_map']
  rw [List.find?_isSome]
  exact ⟨(key, v), List.mem_reverse.mpr h, by simp⟩

theorem mapGet_eq_some_iff {κ α : Type} [BEq κ] [LawfulBEq κ]
    {entries : List (κ × α)} {key : κ}
    {v : α} (hnodup : (entries.map Prod.fst).Nodup) :
    mapGet entries key = some v ↔ (key, v) ∈ entries := by
  constructor
  · exact mapGet_eq_some_mem
  · intro hmem
    have hsome := mapGet_isSome_of_mem hmem
    rcases Option.isSome_iff_exists.mp hsome with ⟨w, hw⟩
    have hmemw : (key, w) ∈ entries := mapGet_eq_some_mem hw
    have : (key, w) = (key, v) :=
      List.inj_on_of_nodup_map hnodup hmemw hmem rfl
    injection this with _ h2
    rw [hw, h2]

theorem mapGet_eq_none_iff {κ α : Type} [BEq κ] [LawfulBEq κ]
    {entries : List (κ × α)} {key : κ} :
    mapGet entries key = none ↔ ∀ v, (key, v) ∉ entries := by
  constructor
  · intro h v hmem
    have := mapGet_isSome_of_mem hmem
    rw [h] at this
    cases this
  · intro h
    cases hget : mapGet entries key with
    | none => rfl
    | some v => exact absurd (mapGet_eq_some_mem hget) (h v)

theorem idTake_length {l m r : List Char} (h : idTake l = some (m, r)) :
    l.length = r.length + 6 := by
  match l with
  | [] => cases h
  | [c1] => cases h
  | [c1, c2] => cases h
  | [c1, c2, c3] => cases h
  | [c1, c2, c3, c4] => cases h
  | [c1, c2, c3, c4, c5] => cases h
  | c1 :: c2 :: c3 :: c4 :: c5 :: c6 :: rest =>
    rw [idTake] at h
    by_cases hc : c1 = 'U' ∧ c2 = 'S' ∧ c3 = '-' ∧
        isJsDigit c4 = true ∧ isJsDigit c5 = true ∧ isJsDigit c6 = true
    · rw [if_pos hc] at h
      injection h with h'
      injection h' with h1 h2
      subst h2
      simp
    · rw [if_neg hc] at h
      cases h

theorem idTake_some_elim {l m r : List Char} (h : idTake l = some (m, r)) :
    ∃ a b c, isJsDigit a = true ∧ isJsDigit b = true ∧ isJsDigit c = true ∧
      m = ['U', 'S', '-', a, b, c] ∧ l = m ++ r := by
  match l with
  | [] => cases h
  | [c1] => cases h
  | [c1, c2] => cases h
  | [c1, c2, c3] => cases h
  | [c1, c2, c3, c4] => cases h
  | [c1, c2, c3, c4, c5] => cases h
  | c1 :: c2 :: c3 :: c4 :: c5 :: c6 :: rest =>
    rw [idTake] at h
    by_cases hc : c1 = 'U' ∧ c2 = 'S' ∧ c3 = '-' ∧
        isJsDigit c4 = true ∧ isJsDigit c5 = true ∧ isJsDigit c6 = true
    · rw [if_pos hc] at h
      injection h with h'
      injection h' with h1 h2
      obtain ⟨e1, e2, e3, e4, e5, e6⟩ := hc
      subst e1; subst e2; subst e3; subst h2; subst h1
      exact ⟨c4, c5, c6, e4, e5, e6, rfl, rfl⟩
    · rw [if_neg hc] at h
      cases h

theorem idTake_of_digits {a b c : Char} (ha : isJsDigit a = true)
    (hb : isJsDigit b = true) (hc : isJsDigit c = true) (rest : List Char) :
    idTake ('U' :: 'S' :: '-' :: a :: b :: c :: rest) =
      some (['U', 'S', '-', a, b, c], rest) := by
  rw [idTake, if_pos ⟨rfl, rfl, rfl, ha, hb, hc⟩]

theorem idTake_none_of_head {x : Char} (h : x ≠ 'U') (t : List Char) :
    idTake (x :: t) = none := by
  match t with
  | [] => rfl
  | [c2] => rfl
  | [c2, c3] => rfl
  | [c2, c3, c4] => rfl
  | [c2, c3, c4, c5] => rfl
  | c2 :: c3 :: c4 :: c5 :: c6 :: rest =>
    rw [idTake]
    exact if_neg (fun hcon => h hcon.1)

theorem isJsDigit_ne_U {c : Char} (h : isJsDigit c = true) : c ≠ 'U' := by
  intro he
  subst he
  exact absurd h (by decide)

theorem scanAux_fuel_eq {fuel₁ fuel₂ : Nat} {l : List Char}
    (h₁ : l.length ≤ fuel₁) (h₂ : l.length ≤ fuel₂) :
    scanAux fuel₁ l = scanAux fuel₂ l := by
  induction fuel₁ generalizing fuel₂ l with
  | zero =>
    have : l = [] := List.length_eq_zero.mp (Nat.le_zero.mp h₁)
    subst this
    cases fuel₂ <;> rfl
  | succ f ih =>
    cases l with
    | nil => cases fuel₂ <;> rfl
    | cons c rest =>
      cases fuel₂ with
      | zero => exact absurd h₂ (by simp)
      | succ g =>
        cases hm : idTake (c :: rest) with
        | some p =>
          obtain ⟨m, r⟩ := p
          have hlen := idTake_length hm
          simp only [List.length_cons] at h₁ h₂ hlen
          have hr₁ : r.length ≤ f := by omega
          have hr₂ : r.length ≤ g := by omega
          simp only [scanAux, hm]
          rw [ih hr₁ hr₂]
        | none =>
          have hr₁ : rest.length ≤ f := by simpa using h₁
          have hr₂ : rest.length ≤ g := by simpa using h₂
          simp only [scanAux, hm]
          rw [ih hr₁ hr₂]

theorem scanMatches_nil : scanMatches [] = [] := rfl

theorem scanMatches_cons_some {c : Char} {rest m r : List Char}
    (h : idTake (c :: rest) = some (m, r)) :
    scanMatches (c :: rest) = m :: scanMatches r := by
  have hlen := idTake_length h
  simp only [List.length_cons] at hlen
  unfold scanMatches
  rw [List.length_cons, scanAux, h]
  rw [scanAux_fuel_eq (le_refl r.length) (by omega : r.length ≤ rest.length)]

theorem scanMatches_cons_none {c : Char} {rest : List Char}
    (h : idTake (c :: rest) = none) :
    scanMatches (c :: rest) = scanMatches rest := by
  unfold scanMatches
  rw [List.length_cons, scanAux, h]

theorem idOccurrences_cons_some {c : Char} {rest m r : List Char}
    (h : idTake (c :: rest) = some (m, r)) :
    idOccurrences (c :: rest) = m :: idOccurrences rest := by
  rw [idOccurrences, h]

theorem idOccurrences_cons_none {c : Char} {rest : List Char}
    (h : idTake (c :: rest) = none) :
    idOccurrences (c :: rest) = idOccurrences rest := by
  rw [idOccurrences, h]

/-- Positions strictly inside a match cannot start a second match (the
pattern's characters `S`, `-`, digits all differ from the leading `U`), so
skipping past a match loses no occurrences. -/
theorem idOccurrences_skip {a b c : Char} {r : List Char}
    (ha : isJsDigit a = true) (hb : isJsDigit b = true) (hc : isJsDigit c = true) :
    idOccurrences ('S' :: '-' :: a :: b :: c :: r) = idOccurrences r := by
  rw [idOccurrences_cons_none (idTake_none_of_head (by decide) _),
    idOccurrences_cons_none (idTake_none_of_head (by decide) _),
    idOccurrences_cons_none (idTake_none_of_head (isJsDigit_ne_U ha) _),
    idOccurrences_cons_none (idTake_none_of_head (isJsDigit_ne_U hb) _),
    idOccurrences_cons_none (idTake_none_of_head (isJsDigit_ne_U hc) _)]

/-- The non-overlapping `matchAll` scan finds exactly the occurrence at every
matching position: for this identifier pattern, matches cannot overlap. -/
theorem scanMatches_eq_idOccurrences (l : List Char) :
    scanMatches l = idOccurrences l := by
  have H : ∀ n l, List.length l ≤ n → scanMatches l = idOccurrences l := by
    intro n
    induction n with
    | zero =>
      intro l hl
      have : l = [] := List.length_eq_zero.mp (Nat.le_zero.mp hl)
      subst this
      rfl
    | succ n ih =>
      intro l hl
      cases l with
      | nil => rfl
      | cons c rest =>
        cases hm : idTake (c :: rest) with
        | some p =>
          obtain ⟨m, r⟩ := p
          obtain ⟨a, b, c', hda, hdb, hdc, hmEq, hlEq⟩ := idTake_some_elim hm
          have hlen := idTake_length hm
          simp only [List.length_cons] at hl hlen
          rw [scanMatches_cons_some hm, idOccurrences_cons_some hm]
          have hrest : rest = 'S' :: '-' :: a :: b :: c' :: r := by
            have h0 : c :: rest = 'U' :: 'S' :: '-' :: a :: b :: c' :: r := by
              rw [hlEq, hmEq]
              rfl
            exact (List.cons_eq_cons.mp h0).2
          rw [hrest, idOccurrences_skip hda hdb hdc]
          exact congrArg (m :: ·) (ih r (by omega))
        | none =>
          rw [scanMatches_cons_none hm, idOccurrences_cons_none hm]
          exact ih rest (by simpa using hl)
  exact H l.length l (le_refl _)

/-- No occurrence of the identifier pattern anywhere in `l`, characterised by
positions (the meaning of "contains no identifier-shaped substring"). -/
theorem idOccurrences_eq_nil_iff {l : List Char} :
    idOccurrences l = [] ↔ ∀ i, idTake (l.drop i) = none := by
  induction l with
  | nil =>
    simp only [idOccurrences, true_iff]
    intro i
    rw [List.drop_nil]
    rfl
  | cons c rest ih =>
    cases hm : idTake (c :: rest) with
    | some p =>
      rw [idOccurrences_cons_some hm]
      simp only [List.cons_ne_nil, false_iff, not_forall]
      exact ⟨0, by rw [List.drop_zero, hm]; simp⟩
    | none =>
      rw [idOccurrences_cons_none hm, ih]
      constructor
      · intro h i
        cases i with
        | zero => rw [List.drop_zero]; exact hm
        | succ j => rw [List.drop_succ_cons]; exact h j
      · intro h i
        have := h (i + 1)
        rw [List.drop_succ_cons] at this
        exact this

theorem dropWhile_of_all_false {p : Char → Bool} {l : List Char}
    (h : ∀ c ∈ l, p c = false) : l.dropWhile p = l := by
  cases l with
  | nil => rfl
  | cons c rest =>
    rw [List.dropWhile_cons]
    simp [h c (List.mem_cons_self c rest)]

theorem jsTrim_eq_self {l : List Char}
    (h : ∀ c ∈ l, isJsWhitespace c = false) : jsTrim l = l := by
  unfold jsTrim
  rw [dropWhile_of_all_false h,
    dropWhile_of_all_false (fun c hc => h c (List.mem_reverse.mp hc)),
    List.reverse_reverse]

theorem replaceAllAux_fuel_eq (search repl : List Char) :
    ∀ {fuel₁ fuel₂ : Nat} {l : List Char}, l.length ≤ fuel₁ → l.length ≤ fuel₂ →
      replaceAllAux search repl fuel₁ l = replaceAllAux search repl fuel₂ l := by
  intro fuel₁
  induction fuel₁ with
  | zero =>
    intro fuel₂ l h₁ h₂
    have : l = [] := List.eq_nil_of_length_eq_zero (Nat.le_zero.mp h₁)
    subst this
    cases fuel₂ <;> rfl
  | succ g₁ ih =>
    intro fuel₂ l h₁ h₂
    cases l with
    | nil => cases fuel₂ <;> rfl
    | cons c rest =>
      cases fuel₂ with
      | zero => exact absurd h₂ (by simp)
      | succ g₂ =>
        show replaceAllAux search repl (g₁ + 1) (c :: rest) =
          replaceAllAux search repl (g₂ + 1) (c :: rest)
        by_cases hp : search ≠ [] ∧ search.isPrefixOf (c :: rest) = true
        · rw [replaceAllAux, replaceAllAux, if_pos hp, if_pos hp]
          have hs : 0 < search.length := List.length_pos.mpr hp.1
          have hd : ((c :: rest).drop search.length).length ≤ g₁ := by
            simp only [List.length_drop, List.length_cons]
            simp only [List.length_cons] at h₁
            omega
          have hd₂ : ((c :: rest).drop search.length).length ≤ g₂ := by
            simp only [List.length_drop, List.length_cons]
            simp only [List.length_cons] at h₂
            omega
          rw [ih hd hd₂]
        · rw [replaceAllAux, replaceAllAux, if_neg hp, if_neg hp]
          have hr : rest.length ≤ g₁ := by
            simp only [List.length_cons] at h₁
            omega
          have hr₂ : rest.length ≤ g₂ := by
            simp only [List.length_cons] at h₂
            omega
          rw [ih hr hr₂]

theorem replaceAllChars_nil (search repl : List Char) :
    replaceAllChars search repl [] = [] := rfl

theorem replaceAllChars_pos {search : List Char} (repl : List Char)
    {c : Char} {rest : List Char}
    (hne : search ≠ []) (hp : search.isPrefixOf (c :: rest) = true) :
    replaceAllChars search repl (c :: rest) =
      repl ++ replaceAllChars search repl ((c :: rest).drop search.length) := by
  show replaceAllAux search repl (rest.length + 1) (c :: rest) = _
  rw [replaceAllAux, if_pos ⟨hne, hp⟩]
  have hs : 0 < search.length := List.length_pos.mpr hne
  have hd : ((c :: rest).drop search.length).length ≤ rest.length := by
    simp only [List.length_drop, List.length_cons]
    omega
  rw [replaceAllAux_fuel_eq search repl hd (Nat.le_refl _)]
  rfl

theorem replaceAllChars_neg {search : List Char} (repl : List Char)
    {c : Char} {rest : List Char}
    (hp : ¬ search.isPrefixOf (c :: rest) = true) :
    replaceAllChars search repl (c :: rest) =
      c :: replaceAllChars search repl rest := by
  show replaceAllAux search repl (rest.length + 1) (c :: rest) = _
  rw [replaceAllAux, if_neg (fun hcon => hp hcon.2)]
  rfl

theorem isJsDigit_ne_of {c : Char} (h : isJsDigit c = true) {d : Char}
    (hd : isJsDigit d = false) : c ≠ d := by
  intro he
  subst he
  rw [h] at hd
  cases hd

theorem isPrefixOf_cons_false {s0 c : Char} {st t : List Char} (h : c ≠ s0) :
    (s0 :: st).isPrefixOf (c :: t) = false := by
  simp only [List.isPrefixOf, Bool.and_eq_false_iff]
  left
  simp [Ne.symm h]

theorem isPrefixOf_self_append (l t : List Char) : l.isPrefixOf (l ++ t) = true := by
  rw [List.isPrefixOf_iff_prefix]
  exact List.prefix_append l t

/-- A scan over characters that all differ from the search pattern's first
character finds no occurrence. -/
theorem no_match_of_all_head_ne {s0 : Char} {st : List Char} {a tail0 : List Char}
    (hall : ∀ c ∈ a, c ≠ s0) :
    ∀ i < a.length, ((s0 :: st).isPrefixOf ((a ++ tail0).drop i)) = false := by
  induction a with
  | nil =>
    intro i hi
    exact absurd hi (by simp)
  | cons x xs ih =>
    intro i hi
    cases i with
    | zero =>
      rw [List.drop_zero, List.cons_append]
      exact isPrefixOf_cons_false (hall x (List.mem_cons_self x xs))
    | succ j =>
      rw [List.cons_append, List.drop_succ_cons]
      exact ih (fun c hc => hall c (List.mem_cons_of_mem x hc)) j
        (by simpa using hi)

theorem replaceAllChars_no_match {search repl s : List Char}
    (h : ∀ i < s.length, search.isPrefixOf (s.drop i) = false) :
    replaceAllChars search repl s = s := by
  induction s with
  | nil => exact replaceAllChars_nil search repl
  | cons c rest ih =>
    have h0 : search.isPrefixOf (c :: rest) = false := by
      have := h 0 (by simp)
      rwa [List.drop_zero] at this
    rw [replaceAllChars_neg repl (by rw [h0]; exact Bool.false_ne_true)]
    refine congrArg (c :: ·) (ih ?_)
    intro i hi
    have := h (i + 1) (by simpa using hi)
    rwa [List.drop_succ_cons] at this

theorem replaceAllChars_append {search repl a b : List Char} (hne : search ≠ [])
    (h : ∀ i < a.length, search.isPrefixOf ((a ++ (search ++ b)).drop i) = false) :
    replaceAllChars search repl (a ++ (search ++ b)) =
      a ++ (repl ++ replaceAllChars search repl b) := by
  induction a with
  | nil =>
    rw [List.nil_append, List.nil_append]
    obtain ⟨s0, st, rfl⟩ := List.exists_cons_of_ne_nil hne
    rw [show (s0 :: st) ++ b = s0 :: (st ++ b) from rfl]
    rw [replaceAllChars_pos repl hne (by
      rw [show s0 :: (st ++ b) = (s0 :: st) ++ b from rfl]
      exact isPrefixOf_self_append _ _)]
    rw [show s0 :: (st ++ b) = (s0 :: st) ++ b from rfl, List.drop_left]
  | cons x xs ih =>
    have h0 : search.isPrefixOf (x :: (xs ++ (search ++ b))) = false := by
      have := h 0 (by simp)
      rwa [List.drop_zero, List.cons_append] at this
    rw [List.cons_append,
      replaceAllChars_neg repl (by rw [h0]; exact Bool.false_ne_true)]
    rw [ih (fun i hi => by
      have := h (i + 1) (by simpa using hi)
      rwa [List.cons_append, List.drop_succ_cons] at this)]
    rfl

theorem idFullMatch_elim {id : String} (h : idFullMatch id = true) :
    ∃ a b c, isJsDigit a = true ∧ isJsDigit b = true ∧ isJsDigit c = true ∧
      id.data = ['U', 'S', '-', a, b, c] := by
  unfold idFullMatch at h
  cases hm : idTake id.data with
  | none => rw [hm] at h; cases h
  | some p =>
    obtain ⟨m, r⟩ := p
    rw [hm] at h
    cases r with
    | nil =>
      obtain ⟨a, b, c, da, db, dc, hmEq, hlEq⟩ := idTake_some_elim hm
      refine ⟨a, b, c, da, db, dc, ?_⟩
      rw [hlEq, hmEq]
      rfl
    | cons y ys => cases h

theorem formatCardTitle_eq {id title : String} (h : idFullMatch id = true) :
    formatCardTitle id title =
      some (String.mk ('[' :: (id.data ++ (']' :: ' ' :: title.data)))) := by
  obtain ⟨a, b, c, da, db, dc, hid⟩ := idFullMatch_elim h
  have hlb : isJsDigit '{' = false := by decide
  unfold formatCardTitle
  rw [if_pos h]
  have e2 : replaceAllChars "{id}".data id.data "] {title}".data =
      "] {title}".data :=
    replaceAllChars_no_match (by decide)
  have e1 : replaceAllChars "{id}".data id.data "[{id}] {title}".data =
      '[' :: (id.data ++ "] {title}".data) := by
    have := @replaceAllChars_append "{id}".data id.data ['[']
      "] {title}".data (by decide) (by decide)
    rw [e2] at this
    exact this
  have hstep1 : jsReplaceAll "[{id}] {title}" "{id}" id =
      String.mk ('[' :: (id.data ++ "] {title}".data)) := by
    unfold jsReplaceAll
    rw [if_neg (by decide)]
    rw [e1]
  rw [hstep1]
  have hshape : '[' :: (id.data ++ "] {title}".data) =
      ('[' :: id.data ++ [']', ' ']) ++ ("{title}".data ++ []) := by
    rw [hid]
    rfl
  have hall : ∀ ch ∈ '[' :: id.data ++ [']', ' '], ch ≠ '{' := by
    rw [hid]
    intro ch hch
    simp only [List.cons_append, List.nil_append, List.mem_cons,
      List.not_mem_nil, or_false] at hch
    rcases hch with h1 | h1 | h1 | h1 | h1 | h1 | h1 | h1 | h1 <;> subst h1
    · decide
    · decide
    · decide
    · decide
    · exact isJsDigit_ne_of da hlb
    · exact isJsDigit_ne_of db hlb
    · exact isJsDigit_ne_of dc hlb
    · decide
    · decide
  have e3 : replaceAllChars "{title}".data title.data
      ('[' :: (id.data ++ "] {title}".data)) =
      ('[' :: id.data ++ [']', ' ']) ++ title.data := by
    rw [hshape]
    rw [replaceAllChars_append (by decide) (by
      intro i hi
      exact no_match_of_all_head_ne hall i hi)]
    rw [replaceAllChars_nil, List.append_nil]
  unfold jsReplaceAll
  rw [if_neg (by decide)]
  rw [show (String.mk ('[' :: (id.data ++ "] {title}".data))).data =
    '[' :: (id.data ++ "] {title}".data) from rfl]
  rw [e3]
  congr 1
  rw [hid]
  rfl

theorem String_mk_data (s : String) : String.mk s.data = s := by
  cases s
  rfl

theorem scanMatches_format {id title : String} (h : idFullMatch id = true)
    (hnosub : idOccurrences title.data = []) :
    scanMatches ('[' :: (id.data ++ (']' :: ' ' :: title.data))) = [id.data] := by
  obtain ⟨a, b, c, da, db, dc, hid⟩ := idFullMatch_elim h
  rw [scanMatches_cons_none (idTake_none_of_head (by decide) _)]
  rw [hid]
  rw [show (['U', 'S', '-', a, b, c] : List Char) ++ (']' :: ' ' :: title.data) =
    'U' :: 'S' :: '-' :: a :: b :: c :: (']' :: ' ' :: title.data) from rfl]
  rw [scanMatches_cons_some (idTake_of_digits da db dc _)]
  rw [scanMatches_cons_none (idTake_none_of_head (by decide) _)]
  rw [scanMatches_cons_none (idTake_none_of_head (by decide) _)]
  rw [scanMatches_eq_idOccurrences, hnosub]

theorem execCardTitleRegex_cons (rest : List Char) :
    execCardTitleRegex ('[' :: rest) =
      match idTake rest with
      | some (idChars, ']' :: ' ' :: titleChars) =>
          if titleChars.all isRegexDotChar then some (idChars, titleChars)
          else none
      | _ => none := rfl

theorem execCardTitleRegex_format {id title : String} (h : idFullMatch id = true)
    (hdot : title.data.all isRegexDotChar = true) :
    execCardTitleRegex ('[' :: (id.data ++ (']' :: ' ' :: title.data))) =
      some (id.data, title.data) := by
  obtain ⟨a, b, c, da, db, dc, hid⟩ := idFullMatch_elim h
  rw [hid]
  rw [show (['U', 'S', '-', a, b, c] : List Char) ++ (']' :: ' ' :: title.data) =
    'U' :: 'S' :: '-' :: a :: b :: c :: (']' :: ' ' :: title.data) from rfl]
  rw [execCardTitleRegex_cons, idTake_of_digits da db dc _]
  show (if title.data.all isRegexDotChar = true then
      some ((['U', 'S', '-', a, b, c] : List Char), title.data) else none) =
    some (['U', 'S', '-', a, b, c], title.data)
  rw [if_pos hdot]

theorem parseCardTitle_format {id title : String}
    (hid : idFullMatch id = true)
    (hnosub : idOccurrences title.data = [])
    (hdot : title.data.all isRegexDotChar = true)
    (htrim : jsTrim title.data = title.data) :
    parseCardTitle (String.mk ('[' :: (id.data ++ (']' :: ' ' :: title.data)))) =
      .ok id title := by
  unfold parseCardTitle
  simp only [show (String.mk ('[' :: (id.data ++ (']' :: ' ' :: title.data)))).data =
      '[' :: (id.data ++ (']' :: ' ' :: title.data)) from rfl,
    scanMatches_format hid hnosub, execCardTitleRegex_format hid hdot,
    List.map_cons, List.map_nil, List.length_cons, List.length_nil]
  rw [if_neg (by decide), if_neg (by decide), htrim, String_mk_data,
    String_mk_data]

theorem classifyStoryOnly_keyOf (env : SyncEnv) (id : String) (story : PrdStory) :
    (env.classifyStoryOnly id story).keyOf = some id := by
  unfold SyncEnv.classifyStoryOnly
  split
  · rfl
  · split
    · rfl
    · rfl

theorem classifyCardOnly_keyOf (env : SyncEnv) (id : String) (record : CardRecord) :
    (env.classifyCardOnly id record).keyOf = some id := by
  unfold SyncEnv.classifyCardOnly
  split
  · rfl
  · split
    · rfl
    · rfl

theorem classifyPair_keyOf (env : SyncEnv) (id : String) (story : PrdStory)
    (record : CardRecord) :
    (env.classifyPair id story record).keyOf = some id := by
  unfold SyncEnv.classifyPair
  repeat' split
  all_goals rfl

theorem classifyId_keyOf (env : SyncEnv) (id : String) :
    (env.classifyId id).keyOf = none ∨ (env.classifyId id).keyOf = some id := by
  unfold SyncEnv.classifyId
  split
  · exact Or.inl rfl
  · split
    · exact Or.inr (classifyStoryOnly_keyOf env id _)
    · exact Or.inr (classifyCardOnly_keyOf env id _)
    · exact Or.inr (classifyPair_keyOf env id _ _)
    · exact Or.inl rfl

theorem classifyId_skip_of_conflicted {env : SyncEnv} {id : String}
    (h : env.conflictedIds.contains id = true) :
    env.classifyId id = .skip := by
  unfold SyncEnv.classifyId
  rw [if_pos h]

/-- Membership transfer from a classification into the built plan. -/
theorem mem_plan_conflicts_of_classify {env : SyncEnv} {id : String}
    {c : SyncConflict} (hid : id ∈ env.sortedIds)
    (h : env.classifyId id = .conflictEntry c) :
    c ∈ (buildPlan env).conflicts := by
  have hdec : SyncDecision.conflictEntry c ∈ env.sortedIds.map env.classifyId :=
    h ▸ List.mem_map_of_mem env.classifyId hid
  have hmem : c ∈ (env.sortedIds.map env.classifyId).filterMap decisionConflict := by
    rw [List.mem_filterMap]
    exact ⟨.conflictEntry c, hdec, rfl⟩
  unfold buildPlan
  refine (sortByKey_perm _ _).mem_iff.mpr ?_
  exact List.mem_append_right _ hmem

theorem mem_plan_updates_of_classify {env : SyncEnv} {id : String}
    {u : SyncUpdate} (hid : id ∈ env.sortedIds)
    (h : env.classifyId id = .updateEntry u) :
    u ∈ (buildPlan env).updates := by
  have hdec : SyncDecision.updateEntry u ∈ env.sortedIds.map env.classifyId :=
    h ▸ List.mem_map_of_mem env.classifyId hid
  have hmem : u ∈ (env.sortedIds.map env.classifyId).filterMap decisionUpdate := by
    rw [List.mem_filterMap]
    exact ⟨.updateEntry u, hdec, rfl⟩
  unfold buildPlan
  exact (sortByKey_perm _ _).mem_iff.mpr hmem

theorem mem_plan_noop_of_classify {env : SyncEnv} {id : String}
    {n : SyncNoop} (hid : id ∈ env.sortedIds)
    (h : env.classifyId id = .noopEntry n) :
    n ∈ (buildPlan env).noop := by
  have hdec : SyncDecision.noopEntry n ∈ env.sortedIds.map env.classifyId :=
    h ▸ List.mem_map_of_mem env.classifyId hid
  have hmem : n ∈ (env.sortedIds.map env.classifyId).filterMap decisionNoop := by
    rw [List.mem_filterMap]
    exact ⟨.noopEntry n, hdec, rfl⟩
  unfold buildPlan
  exact (sortByKey_perm _ _).mem_iff.mpr hmem

/-- A story found by id is in the id universe of the main loop. -/
theorem mem_sortedIds_of_prdById {env : SyncEnv} {id : String} {story : PrdStory}
    (h : env.prdById id = some story) : id ∈ env.sortedIds := by
  unfold SyncEnv.sortedIds
  rw [mem_sortStrings, mem_dedupKeepFirst]
  refine List.mem_append_left _ ?_
  have hmem : story ∈ env.prdResult.stories := List.mem_of_find?_eq_some h
  have hkey : story.id = id := by simpa using List.find?_some h
  exact hkey ▸ List.mem_map_of_mem (·.id) hmem

/-- A record found by id is in the id universe and carries that id. -/
theorem recordById_eq {env : SyncEnv} {id : String} {record : CardRecord}
    (h : env.recordById id = some record) :
    record ∈ env.uniqueCardRecords ∧ record.storyId = id := by
  have hmem := mapGet_eq_some_mem h
  rw [List.mem_map] at hmem
  obtain ⟨r, hr, heq⟩ := hmem
  injection heq with h1 h2
  subst h2
  exact ⟨hr, h1⟩

theorem mem_sortedIds_of_recordById {env : SyncEnv} {id : String}
    {record : CardRecord} (h : env.recordById id = some record) :
    id ∈ env.sortedIds := by
  obtain ⟨hmem, hkey⟩ := recordById_eq h
  unfold SyncEnv.sortedIds
  rw [mem_sortStrings, mem_dedupKeepFirst]
  exact List.mem_append_right _ (hkey ▸ List.mem_map_of_mem (·.storyId) hmem)

theorem mem_duplicateStoryIds {env : SyncEnv} {id : String} :
    id ∈ env.duplicateStoryIds ↔
      2 ≤ (env.prdResult.stories.map (·.id)).count id := mem_dupKeys

theorem groupByStoryId_keys_nodup (records : List CardRecord) :
    ((groupByStoryId records).map Prod.fst).Nodup := by
  unfold groupByStoryId
  rw [List.map_map]
  have : (Prod.fst ∘ fun key =>
      (key, records.filter (fun r => r.storyId == key))) = fun key => key := by
    funext key
    rfl
  rw [this]
  simpa using dedupKeepFirst_nodup (records.map (·.storyId))

theorem mem_groupByStoryId {records : List CardRecord} {g : String × List CardRecord} :
    g ∈ groupByStoryId records ↔
      g.1 ∈ records.map (·.storyId) ∧
      g.2 = records.filter (fun r => r.storyId == g.1) := by
  unfold groupByStoryId
  rw [List.mem_map]
  constructor
  · rintro ⟨key, hkey, rfl⟩
    exact ⟨mem_dedupKeepFirst.mp hkey, rfl⟩
  · rintro ⟨hkey, hval⟩
    refine ⟨g.1, mem_dedupKeepFirst.mpr hkey, ?_⟩
    cases g
    simp only at hval
    rw [hval]

theorem mem_duplicateCardIds {env : SyncEnv} {id : String} :
    id ∈ env.duplicateCardIds ↔
      2 ≤ (env.cardRecords.filter (fun r => r.storyId == id)).length := by
  unfold SyncEnv.duplicateCardIds
  rw [List.mem_map]
  constructor
  · rintro ⟨g, hg, rfl⟩
    rw [List.mem_filter] at hg
    obtain ⟨hmem, hlen⟩ := hg
    obtain ⟨_, hval⟩ := mem_groupByStoryId.mp hmem
    rw [← hval]
    simpa using hlen
  · intro hlen
    refine ⟨(id, env.cardRecords.filter (fun r => r.storyId == id)), ?_, rfl⟩
    rw [List.mem_filter]
    constructor
    · refine mem_groupByStoryId.mpr ⟨?_, rfl⟩
      have : 0 < (env.cardRecords.filter (fun r => r.storyId == id)).length := by
        omega
      rw [List.length_pos] at this
      obtain ⟨r, hr⟩ := List.exists_mem_of_ne_nil _ this
      rw [List.mem_filter] at hr
      obtain ⟨hrmem, hrid⟩ := hr
      have : r.storyId = id := by simpa using hrid
      exact this ▸ List.mem_map_of_mem (·.storyId) hrmem
    · simpa using hlen

theorem duplicateCardIds_nodup (env : SyncEnv) : env.duplicateCardIds.Nodup := by
  unfold SyncEnv.duplicateCardIds
  have hsub : List.Sublist
      (((groupByStoryId env.cardRecords).filter
        (fun g => g.2.length > 1)).map Prod.fst)
      ((groupByStoryId env.cardRecords).map Prod.fst) :=
    List.Sublist.map Prod.fst (List.filter_sublist _)
  exact hsub.nodup (groupByStoryId_keys_nodup env.cardRecords)

theorem mem_conflictedIds {env : SyncEnv} {id : String} :
    id ∈ env.conflictedIds ↔
      2 ≤ (env.prdResult.stories.map (·.id)).count id ∨
      2 ≤ (env.cardRecords.filter (fun r => r.storyId == id)).length := by
  unfold SyncEnv.conflictedIds
  rw [List.mem_append, mem_duplicateStoryIds, mem_duplicateCardIds]

theorem duplicateCardConflicts_ids (env : SyncEnv) :
    env.duplicateCardConflicts.map SyncConflict.id =
      env.duplicateCardIds.map some := by
  unfold SyncEnv.duplicateCardConflicts SyncEnv.duplicateCardIds
  induction groupByStoryId env.cardRecords with
  | nil => rfl
  | cons g gs ih =>
    by_cases hg : g.2.length > 1
    · simp only [List.filterMap_cons, List.filter_cons, if_pos hg,
        decide_eq_true_eq, hg, if_true, List.map_cons]
      rw [ih]
    · simp only [List.filterMap_cons, List.filter_cons, if_neg hg,
        decide_eq_true_eq, hg, if_false]
      exact ih

/-- Counting conflicts keyed by an identifier, transported through the final
sort and the bucket assembly. -/
theorem countP_plan_conflicts (env : SyncEnv) (p : SyncConflict → Bool) :
    (buildPlan env).conflicts.countP p =
      env.statusIssueConflicts.countP p +
      env.duplicateStoryConflicts.countP p +
      env.parseConflicts.countP p +
      env.duplicateCardConflicts.countP p +
      ((env.sortedIds.map env.classifyId).filterMap decisionConflict).countP p := by
  unfold buildPlan
  rw [List.Perm.countP_eq p (sortByKey_perm _ _)]
  simp [List.countP_append, Nat.add_assoc]

theorem countP_statusIssueConflicts (env : SyncEnv) (id : String) :
    env.statusIssueConflicts.countP (fun c => c.id == some id) = 0 := by
  rw [List.countP_eq_zero]
  intro c hc
  unfold SyncEnv.statusIssueConflicts at hc
  rw [List.mem_map] at hc
  obtain ⟨issue, _, rfl⟩ := hc
  simp

theorem countP_parseConflicts (env : SyncEnv) (id : String) :
    env.parseConflicts.countP (fun c => c.id == some id) = 0 := by
  rw [List.countP_eq_zero]
  intro c hc
  unfold SyncEnv.parseConflicts at hc
  rw [List.mem_filterMap] at hc
  obtain ⟨card, _, hres⟩ := hc
  cases hp : env.parseTitle card.name <;> rw [hp] at hres
  · cases hres
  · injection hres with h1
    rw [← h1]
    simp
  · injection hres with h1
    rw [← h1]
    simp

theorem count_of_nodup {l : List String} {x : String} (h : l.Nodup) :
    l.count x = if x ∈ l then 1 else 0 := by
  by_cases hx : x ∈ l
  · rw [if_pos hx]
    exact List.count_eq_one_of_mem h hx
  · rw [if_neg hx]
    exact List.count_eq_zero.mpr hx

theorem countP_duplicateStoryConflicts (env : SyncEnv) (id : String) :
    env.duplicateStoryConflicts.countP (fun c => c.id == some id) =
      if id ∈ env.duplicateStoryIds then 1 else 0 := by
  unfold SyncEnv.duplicateStoryConflicts
  rw [List.countP_map]
  have hfun : ((fun c => c.id == some id) ∘ fun i =>
      (⟨some i, "Duplicate story ID in PRD stories", [], none⟩ : SyncConflict)) =
      (fun i => i == id) := by
    funext i
    simp [Function.comp]
  rw [hfun, show env.duplicateStoryIds.countP (fun i => i == id) =
    env.duplicateStoryIds.count id from rfl]
  exact count_of_nodup (dupKeys_nodup _)

theorem countP_duplicateCardConflicts (env : SyncEnv) (id : String) :
    env.duplicateCardConflicts.countP (fun c => c.id == some id) =
      if id ∈ env.duplicateCardIds then 1 else 0 := by
  have hmap : env.duplicateCardConflicts.countP (fun c => c.id == some id) =
      (env.duplicateCardConflicts.map SyncConflict.id).countP
        (fun o => o == some id) := by
    rw [List.countP_map]
    rfl
  rw [hmap, duplicateCardConflicts_ids, List.countP_map]
  have hfun : ((fun o => o == some id) ∘ some) = (fun i => i == id) := by
    funext i
    simp [Function.comp]
  rw [hfun, show env.duplicateCardIds.countP (fun i => i == id) =
    env.duplicateCardIds.count id from rfl]
  exact count_of_nodup (duplicateCardIds_nodup env)

theorem countP_loopConflicts_of_conflicted (env : SyncEnv) (id : String)
    (h : id ∈ env.conflictedIds) :
    ((env.sortedIds.map env.classifyId).filterMap decisionConflict).countP
      (fun c => c.id == some id) = 0 := by
  rw [List.countP_eq_zero]
  intro c hc
  rw [List.mem_filterMap] at hc
  obtain ⟨d, hd, hdc⟩ := hc
  rw [List.mem_map] at hd
  obtain ⟨i, hi, rfl⟩ := hd
  intro hpred
  have hcid : c.id = some id := by simpa using hpred
  cases hdec : env.classifyId i with
  | conflictEntry c0 =>
    have hc0 : c0 = c := by
      rw [hdec] at hdc
      simpa [decisionConflict] using hdc
    subst hc0
    have hkey := classifyId_keyOf env i
    rw [hdec] at hkey
    simp only [SyncDecision.keyOf] at hkey
    rcases hkey with hk | hk
    · rw [hk] at hcid
      cases hcid
    · rw [hk] at hcid
      injection hcid with h2
      subst h2
      have hskip : env.classifyId i = .skip :=
        classifyId_skip_of_conflicted (List.elem_iff.mpr h)
      rw [hdec] at hskip
      cases hskip
  | skip => rw [hdec] at hdc; cases hdc
  | createEntry c0 => rw [hdec] at hdc; cases hdc
  | updateEntry u0 => rw [hdec] at hdc; cases hdc
  | noopEntry n0 => rw [hdec] at hdc; cases hdc

/-- A loop decision keyed by a conflicted identifier cannot occur: the loop
skips conflicted identifiers entirely. -/
theorem decision_key_ne_conflicted {env : SyncEnv} {id i : String}
    (h : id ∈ env.conflictedIds) (hkey : (env.classifyId i).keyOf = some id) :
    False := by
  rcases classifyId_keyOf env i with hk | hk
  · rw [hk] at hkey
    cases hkey
  · rw [hk] at hkey
    injection hkey with h1
    subst h1
    have hskip : env.classifyId i = .skip :=
      classifyId_skip_of_conflicted (List.elem_iff.mpr h)
    rw [hskip] at hk
    cases hk

/-- When the identifier is conflicted, no loop decision contributes any plan
entry keyed by it. -/
theorem plan_excludes_conflicted (env : SyncEnv) (id : String)
    (h : id ∈ env.conflictedIds) :
    (∀ c ∈ (buildPlan env).creates, SyncCreate.key c ≠ id) ∧
    (∀ u ∈ (buildPlan env).updates, SyncUpdate.key u ≠ id) ∧
    (∀ n ∈ (buildPlan env).noop, SyncNoop.id n ≠ id) := by
  refine ⟨?_, ?_, ?_⟩
  · intro c hc he
    subst he
    unfold buildPlan at hc
    have hmem := (sortByKey_perm _ _).mem_iff.mp hc
    rw [List.mem_filterMap] at hmem
    obtain ⟨d, hd, hdc⟩ := hmem
    rw [List.mem_map] at hd
    obtain ⟨i, hi, rfl⟩ := hd
    cases hdec : env.classifyId i with
    | createEntry c0 =>
      have hc0 : c0 = c := by
        rw [hdec] at hdc
        simpa [decisionCreate] using hdc
      subst hc0
      refine decision_key_ne_conflicted h (i := i) ?_
      rw [hdec]
      rfl
    | skip => rw [hdec] at hdc; cases hdc
    | conflictEntry c0 => rw [hdec] at hdc; cases hdc
    | updateEntry u0 => rw [hdec] at hdc; cases hdc
    | noopEntry n0 => rw [hdec] at hdc; cases hdc
  · intro u hu he
    subst he
    unfold buildPlan at hu
    have hmem := (sortByKey_perm _ _).mem_iff.mp hu
    rw [List.mem_filterMap] at hmem
    obtain ⟨d, hd, hdc⟩ := hmem
    rw [List.mem_map] at hd
    obtain ⟨i, hi, rfl⟩ := hd
    cases hdec : env.classifyId i with
    | updateEntry u0 =>
      have hu0 : u0 = u := by
        rw [hdec] at hdc
        simpa [decisionUpdate] using hdc
      subst hu0
      refine decision_key_ne_conflicted h (i := i) ?_
      rw [hdec]
      rfl
    | skip => rw [hdec] at hdc; cases hdc
    | conflictEntry c0 => rw [hdec] at hdc; cases hdc
    | createEntry c0 => rw [hdec] at hdc; cases hdc
    | noopEntry n0 => rw [hdec] at hdc; cases hdc
  · intro n hn he
    subst he
    unfold buildPlan at hn
    have hmem := (sortByKey_perm _ _).mem_iff.mp hn
    rw [List.mem_filterMap] at hmem
    obtain ⟨d, hd, hdc⟩ := hmem
    rw [List.mem_map] at hd
    obtain ⟨i, hi, rfl⟩ := hd
    cases hdec : env.classifyId i with
    | noopEntry n0 =>
      have hn0 : n0 = n := by
        rw [hdec] at hdc
        simpa [decisionNoop] using hdc
      subst hn0
      refine decision_key_ne_conflicted h (i := i) ?_
      rw [hdec]
      rfl
    | skip => rw [hdec] at hdc; cases hdc
    | conflictEntry c0 => rw [hdec] at hdc; cases hdc
    | createEntry c0 => rw [hdec] at hdc; cases hdc
    | updateEntry u0 => rw [hdec] at hdc; cases hdc

/-!
### Preference resolution on equal or unparseable timestamps (C1, C10)
-/

/-- Reduce the main-loop body to the matched-pair classification. -/
theorem classifyId_pair {env : SyncEnv} {id : String} {story : PrdStory}
    {record : CardRecord}
    (hnc : env.conflictedIds.contains id = false)
    (hs : env.prdById id = some story)
    (hr : env.recordById id = some record) :
    env.classifyId id = env.classifyPair id story record := by
  unfold SyncEnv.classifyId
  rw [hnc, hs, hr]
  rfl

/-- In a two-way run past the unchanged gate, with both deltas present, no
structural issues, and an equal-timestamps comparison, the configured
preference alone decides the pair. -/
theorem classifyPair_equal_timestamps {env : SyncEnv} {id : String}
    {story : PrdStory} {record : CardRecord}
    (hdir : env.dir = .two_way)
    (hgate : env.pairUnchangedGate story record = false)
    (hcard : env.pairNeedsCardUpdate story record = true)
    (hstory : env.pairNeedsStoryUpdate story record = true)
    (heq : env.pairTimestampComparison record = 0) :
    (env.conflictPrefer = .none_ →
      env.classifyPair id story record = .conflictEntry
        ⟨some id, "PRD and Trello updates conflict (equal timestamps)",
         [record.card], some story⟩) ∧
    (env.conflictPrefer = .prd →
      env.classifyPair id story record = .updateEntry
        (env.pairTrelloUpdate id story record
          "PRD preferred over Trello (equal timestamps)")) ∧
    (env.conflictPrefer = .trello →
      env.classifyPair id story record = .updateEntry
        (env.pairPrdUpdate id record
          "Trello preferred over PRD (equal timestamps)")) := by
  have hcan : env.pairCanUpdateCard story record = true := by
    have h := hcard
    unfold SyncEnv.pairNeedsCardUpdate at h
    rw [Bool.and_eq_true] at h
    exact h.1
  have hcanS : env.pairCanUpdateStory record = true := by
    have h := hstory
    unfold SyncEnv.pairNeedsStoryUpdate at h
    rw [Bool.and_eq_true] at h
    exact h.1
  refine ⟨?_, ?_, ?_⟩
  · intro hpref
    have hres0 : env.pairResolvedComparison record = 0 := by
      unfold SyncEnv.pairResolvedComparison resolveTimestampComparison
      rw [heq, hpref]
      simp
    unfold SyncEnv.classifyPair
    rw [hdir]
    simp +decide [hgate, hcard, hstory, hres0]
  · intro hpref
    have hres1 : env.pairResolvedComparison record = 1 := by
      unfold SyncEnv.pairResolvedComparison resolveTimestampComparison
      rw [heq, hpref]
      simp
    have hreason : env.pairReason record =
        "PRD preferred over Trello (equal timestamps)" := by
      unfold SyncEnv.pairReason
      rw [if_pos heq, if_pos (by rw [hres1]; decide)]
    unfold SyncEnv.classifyPair
    rw [hdir]
    simp +decide [hgate, hcard, hstory, hcan, hres1, hreason]
  · intro hpref
    have hresm : env.pairResolvedComparison record = -1 := by
      unfold SyncEnv.pairResolvedComparison resolveTimestampComparison
      rw [heq, hpref]
      simp
    have hreason : env.pairReason record =
        "Trello preferred over PRD (equal timestamps)" := by
      unfold SyncEnv.pairReason
      rw [if_pos heq, if_neg (by rw [hresm]; decide)]
    unfold SyncEnv.classifyPair
    rw [hdir]
    simp +decide [hgate, hcard, hstory, hcanS, hresm, hreason]

/-- C1: For a matched pair in a two-way run past the unchanged gate, with
both deltas non-empty, no structural mapping issues, and the document's
`lastModifiedAt` parsing equal to the card's `lastActivityAt`: preference
`none` classifies the pair as a conflict, preference `prd` always emits the
board-targeting (trello) update (never a conflict), and preference `trello`
always emits the document-targeting (prd) update. -/
theorem C1_equal_timestamps_follow_preference (env : SyncEnv) (id : String)
    (story : PrdStory) (record : CardRecord) (t : Int)
    (hnc : env.conflictedIds.contains id = false)
    (hs : env.prdById id = some story)
    (hr : env.recordById id = some record)
    (hdir : env.dir = .two_way)
    (hgate : env.pairUnchangedGate story record = false)
    (hcard : env.pairNeedsCardUpdate story record = true)
    (hstory : env.pairNeedsStoryUpdate story record = true)
    (ht1 : env.dateParse env.prdResult.lastModifiedAt = some t)
    (ht2 : env.dateParse record.card.lastActivityAt = some t) :
    (env.conflictPrefer = .none_ →
      env.classifyId id = .conflictEntry
        ⟨some id, "PRD and Trello updates conflict (equal timestamps)",
         [record.card], some story⟩) ∧
    (env.conflictPrefer = .prd →
      env.classifyId id = .updateEntry
        (env.pairTrelloUpdate id story record
          "PRD preferred over Trello (equal timestamps)")) ∧
    (env.conflictPrefer = .trello →
      env.classifyId id = .updateEntry
        (env.pairPrdUpdate id record
          "Trello preferred over PRD (equal timestamps)")) := by
  have heq : env.pairTimestampComparison record = 0 := by
    unfold SyncEnv.pairTimestampComparison compareIsoTimestamps
    rw [ht1, ht2]
    simp
  rw [classifyId_pair hnc hs hr]
  exact classifyPair_equal_timestamps hdir hgate hcard hstory heq

/-- C10: If either the document's `lastModifiedAt` or the card's
`lastActivityAt` fails to parse as a date, the both-sides-changed timestamp
comparison returns equality, so the configured preference policy alone
decides the pair regardless of the other, parseable timestamp. -/
theorem C10_unparseable_timestamp_is_equality (env : SyncEnv) (id : String)
    (story : PrdStory) (record : CardRecord)
    (hnc : env.conflictedIds.contains id = false)
    (hs : env.prdById id = some story)
    (hr : env.recordById id = some record)
    (hdir : env.dir = .two_way)
    (hgate : env.pairUnchangedGate story record = false)
    (hcard : env.pairNeedsCardUpdate story record = true)
    (hstory : env.pairNeedsStoryUpdate story record = true)
    (hnan : env.dateParse env.prdResult.lastModifiedAt = none ∨
            env.dateParse record.card.lastActivityAt = none) :
    env.pairTimestampComparison record = 0 ∧
    (env.conflictPrefer = .none_ →
      env.classifyId id = .conflictEntry
        ⟨some id, "PRD and Trello updates conflict (equal timestamps)",
         [record.card], some story⟩) ∧
    (env.conflictPrefer = .prd →
      env.classifyId id = .updateEntry
        (env.pairTrelloUpdate id story record
          "PRD preferred over Trello (equal timestamps)")) ∧
    (env.conflictPrefer = .trello →
      env.classifyId id = .updateEntry
        (env.pairPrdUpdate id record
          "Trello preferred over PRD (equal timestamps)")) := by
  have heq : env.pairTimestampComparison record = 0 := by
    unfold SyncEnv.pairTimestampComparison compareIsoTimestamps
    rcases hnan with h | h
    · rw [h]
    · rw [h]
      cases env.dateParse env.prdResult.lastModifiedAt <;> rfl
  refine ⟨heq, ?_⟩
  rw [classifyId_pair hnc hs hr]
  exact classifyPair_equal_timestamps hdir hgate hcard hstory heq

/-- C2 (amended): a duplicated identifier yields one conflict keyed by it per
duplicated side — exactly one when only one side duplicates it, two when both
sides do — and the identifier appears in none of the creates, updates, or
no-op buckets. -/
theorem C2_duplicate_identifier_conflicts (env : SyncEnv) (id : String)
    (h : id ∈ env.conflictedIds) :
    (buildPlan env).conflicts.countP (fun c => c.id == some id) =
      (if id ∈ env.duplicateStoryIds then 1 else 0) +
      (if id ∈ env.duplicateCardIds then 1 else 0) ∧
    1 ≤ (buildPlan env).conflicts.countP (fun c => c.id == some id) ∧
    (∀ c ∈ (buildPlan env).creates, SyncCreate.key c ≠ id) ∧
    (∀ u ∈ (buildPlan env).updates, SyncUpdate.key u ≠ id) ∧
    (∀ n ∈ (buildPlan env).noop, SyncNoop.id n ≠ id) := by
  have hcount := countP_plan_conflicts env (fun c => c.id == some id)
  rw [countP_statusIssueConflicts, countP_parseConflicts,
    countP_duplicateStoryConflicts, countP_duplicateCardConflicts,
    countP_loopConflicts_of_conflicted env id h] at hcount
  obtain ⟨h1, h2, h3⟩ := plan_excludes_conflicted env id h
  refine ⟨by omega, ?_, h1, h2, h3⟩
  have hmem := List.mem_append.mp h
  rcases hmem with hm | hm
  · rw [if_pos hm] at hcount
    omega
  · rw [if_pos hm] at hcount
    omega

/-- C5: `parseCardTitle` returns "missing" on zero identifier matches,
"ambiguous" with the list of all matched identifier substrings on more than
one, and "missing" (rather than extracting the identifier) on exactly one
match when the whole string does not match the compiled card-title
template. -/
theorem C5_parse_match_classification (s : String) :
    (idOccurrences s.data = [] →
      parseCardTitle s = .missing "No story ID found in card title" [] s) ∧
    (2 ≤ (idOccurrences s.data).length →
      parseCardTitle s = .ambiguous "Multiple story IDs found in card title"
        ((idOccurrences s.data).map (fun m => String.mk m)) s) ∧
    (∀ m, idOccurrences s.data = [m] → execCardTitleRegex s.data = none →
      parseCardTitle s = .missing "Story ID not in canonical card title format"
        [String.mk m] s) := by
  refine ⟨?_, ?_, ?_⟩
  · intro h
    unfold parseCardTitle
    rw [scanMatches_eq_idOccurrences, h]
    rfl
  · intro h
    unfold parseCardTitle
    rw [scanMatches_eq_idOccurrences]
    rw [if_neg (by rw [List.length_map]; omega)]
    rw [if_pos (by rw [List.length_map]; omega)]
  · intro m hm hexec
    unfold parseCardTitle
    rw [scanMatches_eq_idOccurrences, hm]
    rw [if_neg (by simp), if_neg (by simp), hexec]
    rfl

/-- The codec round-trip without the pre-trimmed-title assumption: the parsed
title is the JS-trimmed form of the formatted title. -/
theorem parseCardTitle_format_trim {id title : String}
    (hid : idFullMatch id = true)
    (hnosub : idOccurrences title.data = [])
    (hdot : title.data.all isRegexDotChar = true) :
    parseCardTitle (String.mk ('[' :: (id.data ++ (']' :: ' ' :: title.data)))) =
      .ok id (String.mk (jsTrim title.data)) := by
  unfold parseCardTitle
  simp only [show (String.mk ('[' :: (id.data ++ (']' :: ' ' :: title.data)))).data =
      '[' :: (id.data ++ (']' :: ' ' :: title.data)) from rfl,
    scanMatches_format hid hnosub, execCardTitleRegex_format hid hdot,
    List.map_cons, List.map_nil, List.length_cons, List.length_nil]
  rw [if_neg (by decide), if_neg (by decide), String_mk_data]

/-- C4 (amended): for every identifier matching the configured pattern and
every title with no embedded identifier-shaped substring (and no line
terminator, which the template's `.` cannot match), parsing the formatted
card title returns `ok` with the identifier and the JS-trimmed title — the
leading/trailing whitespace of the original title is not restored. -/
theorem C4_roundtrip_trims_title (id title fmt : String)
    (hid : idFullMatch id = true)
    (hnosub : idOccurrences title.data = [])
    (hdot : title.data.all isRegexDotChar = true)
    (hfmt : formatCardTitle id title = some fmt) :
    parseCardTitle fmt = .ok id (strJsTrim title) := by
  rw [formatCardTitle_eq hid] at hfmt
  injection hfmt with h1
  rw [← h1]
  exact parseCardTitle_format_trim hid hnosub hdot

/-- C4 counterexample: formatting the title `" x"` and parsing back returns
the trimmed title `"x"`, not the original `" x"`, refuting the unqualified
round-trip. -/
theorem C4_roundtrip_counterexample :
    formatCardTitle "US-001" " x" = some "[US-001]  x" ∧
    parseCardTitle "[US-001]  x" = .ok "US-001" "x" ∧
    parseCardTitle "[US-001]  x" ≠ .ok "US-001" " x" := by decide

/-- C4 witness: a concrete round-trip through the amended statement. -/
theorem C4_roundtrip_witness :
    parseCardTitle "[US-001]  hello" = .ok "US-001" (strJsTrim " hello") :=
  C4_roundtrip_trims_title "US-001" " hello" "[US-001]  hello"
    (by decide) (by decide) (by decide) (by decide)

/-- C9: the story fingerprint is invariant under permutation of `dependsOn`:
stories agreeing on id, title, status, description, and acceptanceCriteria
whose dependency lists are permutations of each other hash identically. -/
theorem C9_fingerprint_dependsOn_perm (hashText : String → String)
    (s1 s2 : PrdStory)
    (hid : s1.id = s2.id) (ht : s1.title = s2.title)
    (hst : s1.status = s2.status) (hd : s1.description = s2.description)
    (hperm : List.Perm s1.dependsOn s2.dependsOn)
    (hac : s1.acceptanceCriteria = s2.acceptanceCriteria) :
    createStoryFingerprint hashText s1 = createStoryFingerprint hashText s2 := by
  unfold createStoryFingerprint createStoryFingerprintJson
  rw [hid, ht, hst, hd, hac, sortStrings_eq_of_perm hperm]

/-- C9 witness: two stories differing only in the order of `dependsOn` share
a fingerprint. -/
theorem C9_fingerprint_witness :
    createStoryFingerprint (fun s => s)
      ⟨"US-003", "T", .open_, ["US-002", "US-001"], "D", ["A"]⟩ =
    createStoryFingerprint (fun s => s)
      ⟨"US-003", "T", .open_, ["US-001", "US-002"], "D", ["A"]⟩ :=
  C9_fingerprint_dependsOn_perm (fun s => s)
    ⟨"US-003", "T", .open_, ["US-002", "US-001"], "D", ["A"]⟩
    ⟨"US-003", "T", .open_, ["US-001", "US-002"], "D", ["A"]⟩
    rfl rfl rfl rfl (by decide) rfl

/-- C7 (amended): the computed label list is the sorted concatenation (as a
multiset — duplicates are not collapsed) of the card's kept labels (those
with unknown, empty, or non-dependency-prefixed names) and the resolvable
dependency labels; dependency label names resolving to no (or an empty)
label id are collected, deduplicated and sorted, into `missingLabels`. -/
theorem C7_label_resolution (story : PrdStory) (mapping : MappingConfig)
    (labelNameToId labelIdToName : String → Option String) (card : BoardCard) :
    List.Perm
      (resolveLabelIds story mapping labelNameToId labelIdToName
        (some card)).labelIds
      (card.labelIds.filter (fun labelId =>
         match labelIdToName labelId with
         | none => true
         | some labelName =>
             labelName == "" ||
             !(strStartsWith labelName mapping.dependsOnLabelPfx)) ++
       story.dependsOn.filterMap (fun dependency =>
         match labelNameToId (mapping.dependsOnLabelPfx ++ dependency) with
         | some lid => if lid == "" then none else some lid
         | none => none)) ∧
    KeySorted id
      (resolveLabelIds story mapping labelNameToId labelIdToName
        (some card)).labelIds ∧
    (∀ n, n ∈ (resolveLabelIds story mapping labelNameToId labelIdToName
        (some card)).missingLabels ↔
      ∃ dep ∈ story.dependsOn, n = mapping.dependsOnLabelPfx ++ dep ∧
        (labelNameToId n = none ∨ labelNameToId n = some "")) ∧
    (resolveLabelIds story mapping labelNameToId labelIdToName
      (some card)).missingLabels.Nodup ∧
    KeySorted id
      (resolveLabelIds story mapping labelNameToId labelIdToName
        (some card)).missingLabels := by
  refine ⟨sortStrings_perm _, sortStrings_sorted _, ?_, ?_, sortStrings_sorted _⟩
  · intro n
    show n ∈ sortStrings (dedupKeepFirst _) ↔ _
    rw [mem_sortStrings, mem_dedupKeepFirst, List.mem_filterMap]
    constructor
    · rintro ⟨dep, hdep, hsome⟩
      have hsome' : (match labelNameToId (mapping.dependsOnLabelPfx ++ dep) with
          | none => some (mapping.dependsOnLabelPfx ++ dep)
          | some lid => if lid == "" then
              some (mapping.dependsOnLabelPfx ++ dep) else none) = some n := hsome
      cases hlook : labelNameToId (mapping.dependsOnLabelPfx ++ dep) with
      | none =>
        rw [hlook] at hsome'
        injection hsome' with h1
        subst h1
        exact ⟨dep, hdep, rfl, Or.inl hlook⟩
      | some lid =>
        rw [hlook] at hsome'
        by_cases hz : lid = ""
        · subst hz
          have hsome2 : (if (("" : String) == "") = true then
              some (mapping.dependsOnLabelPfx ++ dep) else none) = some n :=
            hsome'
          rw [if_pos (by decide)] at hsome2
          injection hsome2 with h1
          subst h1
          exact ⟨dep, hdep, rfl, Or.inr hlook⟩
        · have hsome2 : (if ((lid : String) == "") = true then
              some (mapping.dependsOnLabelPfx ++ dep) else none) = some n :=
            hsome'
          rw [if_neg (by simpa using hz)] at hsome2
          cases hsome2
    · rintro ⟨dep, hdep, rfl, hmiss⟩
      refine ⟨dep, hdep, ?_⟩
      show (match labelNameToId (mapping.dependsOnLabelPfx ++ dep) with
          | none => some (mapping.dependsOnLabelPfx ++ dep)
          | some lid => if lid == "" then
              some (mapping.dependsOnLabelPfx ++ dep) else none) =
        some (mapping.dependsOnLabelPfx ++ dep)
      rcases hmiss with h | h
      · rw [h]
      · rw [h]
        rfl
  · exact sortStrings_nodup (dedupKeepFirst_nodup _)

/-- C7 counterexample: with `dependsOn = ["US-001", "US-001"]` the merged
label list contains the resolved label twice — it is not the claimed set
union. -/
theorem C7_label_duplication_counterexample :
    (resolveLabelIds
      ⟨"US-003", "T", .open_, ["US-001", "US-001"], "", []⟩
      ⟨"US", "\x7bprefix\x7d-\x7bnumber:3\x7d", "[{id}] {title}",
       ⟨"To Do", "In Progress", "Done"⟩, "depends-on:", "Acceptance Criteria"⟩
      (fun s => if s = "depends-on:US-001" then some "L1" else none)
      (fun _ => none)
      (some ⟨"card-1", "[US-003] T", "", "list-1", [], false, "ts"⟩)).labelIds =
      ["L1", "L1"] ∧
    ¬ (resolveLabelIds
      ⟨"US-003", "T", .open_, ["US-001", "US-001"], "", []⟩
      ⟨"US", "\x7bprefix\x7d-\x7bnumber:3\x7d", "[{id}] {title}",
       ⟨"To Do", "In Progress", "Done"⟩, "depends-on:", "Acceptance Criteria"⟩
      (fun s => if s = "depends-on:US-001" then some "L1" else none)
      (fun _ => none)
      (some ⟨"card-1", "[US-003] T", "", "list-1", [], false, "ts"⟩)).labelIds.Nodup := by
  decide

/-- C8: a run that suppresses plan application (`blockWrites` with a
conflicted plan, not a dry run) still writes the state file —
`syncWithStateFile` gates `saveSyncState` on `dryRun` alone, so the trace is
`[savedState]` with no applied plan, contradicting "written only after a
successful application completes". -/
theorem C8_state_saved_despite_suppressed_apply :
    shouldSkipApply envC8 (buildPlan envC8) = true ∧
    envC8.dryRun.getD false = false ∧
    0 < (buildPlan envC8).conflicts.length ∧
    syncWithStateFileEvents envC8 = [SyncEvent.savedState] := by decide

/-!
### Incremental unchanged pairs (C3)
-/

theorem find?_append_or {α : Type} (p : α → Bool) :
    ∀ (l₁ l₂ : List α), (l₁ ++ l₂).find? p =
      ((l₁.find? p).orElse (fun _ => l₂.find? p)) := by
  intro l₁
  induction l₁ with
  | nil => intro l₂; rfl
  | cons a l ih =>
    intro l₂
    by_cases hp : p a = true
    · rw [List.cons_append, List.find?_cons_of_pos _ hp,
        List.find?_cons_of_pos _ hp]
      rfl
    · rw [List.cons_append, List.find?_cons_of_neg _ hp,
        List.find?_cons_of_neg _ hp, ih]

theorem find?_map_reverse_none {α β : Type} (key : String) (f : α → String)
    (g : α → β) {l : List α} (h : (l.map f).count key = 0) :
    (l.map (fun a => (f a, g a))).reverse.find? (fun e => e.1 == key) = none := by
  rw [List.find?_eq_none]
  intro e he
  rw [List.mem_reverse, List.mem_map] at he
  obtain ⟨a, ha, rfl⟩ := he
  simp only [beq_iff_eq]
  intro hfa
  have hmem : key ∈ l.map f := hfa ▸ List.mem_map_of_mem f ha
  rw [← List.count_pos_iff] at hmem
  omega

/-- When a key occurs at most once, the last-wins map lookup agrees with the
first-wins `find?`. -/
theorem mapGet_of_find?_of_count_le_one {α β : Type} (key : String)
    (f : α → String) (g : α → β) :
    ∀ {l : List α} {x : α},
      l.find? (fun a => f a == key) = some x →
      (l.map f).count key ≤ 1 →
      mapGet (l.map (fun a => (f a, g a))) key = some (g x) := by
  intro l
  induction l with
  | nil =>
    intro x hf _
    cases hf
  | cons a l ih =>
    intro x hf hc
    by_cases ha : f a = key
    · rw [List.find?_cons_of_pos _ (by simpa using ha)] at hf
      injection hf with hx
      subst hx
      have hcount0 : (l.map f).count key = 0 := by
        rw [List.map_cons, List.count_cons] at hc
        simp only [ha, beq_self_eq_true, if_true] at hc
        omega
      unfold mapGet
      rw [List.map_cons, List.reverse_cons, find?_append_or,
        find?_map_reverse_none key f g hcount0]
      simp [ha]
    · rw [List.find?_cons_of_neg _ (by simpa using ha)] at hf
      have hc' : (l.map f).count key ≤ 1 := by
        rw [List.map_cons, List.count_cons] at hc
        omega
      have hres := ih hf hc'
      unfold mapGet at hres ⊢
      rw [List.map_cons, List.reverse_cons, find?_append_or]
      rcases Option.map_eq_some'.mp hres with ⟨e, hfind, hv⟩
      rw [hfind]
      simp [hv]

/-- For a non-duplicated story id the fingerprint map returns the fingerprint
of the story `prdById` finds. -/
theorem storyFingerprints_of_prdById {env : SyncEnv} {id : String}
    {story : PrdStory}
    (hs : env.prdById id = some story)
    (hnd : (env.prdResult.stories.map (·.id)).count id ≤ 1) :
    env.storyFingerprints id =
      some (createStoryFingerprint env.hashText story) := by
  have hs' : env.prdResult.stories.find? (fun s => s.id == id) = some story := hs
  exact mapGet_of_find?_of_count_le_one id (fun s => s.id)
    (createStoryFingerprint env.hashText) hs' hnd

/-- C3: with incremental state supplied and a matched, non-conflicted pair,
the pair is unchanged iff the recorded story fingerprint equals the story's
current fingerprint and the recorded card tuple equals the card's current
(cardId, lastActivityAt) tuple; every unchanged pair is classified no-op and
its card is excluded from the checklist-fetch targets. -/
theorem C3_incremental_unchanged_pairs (env : SyncEnv) (st : SyncState)
    (id : String) (story : PrdStory) (record : CardRecord)
    (hst : env.incrementalState = some st)
    (hs : env.prdById id = some story)
    (hr : env.recordById id = some record)
    (hnc : env.conflictedIds.contains id = false) :
    ((env.isStoryUnchanged story && env.isCardUnchanged record) = true ↔
      (mapGet st.storyIndex id =
         some ⟨createStoryFingerprint env.hashText story⟩ ∧
       mapGet st.cardIndex id =
         some ⟨record.card.id, record.card.lastActivityAt⟩)) ∧
    ((env.isStoryUnchanged story && env.isCardUnchanged record) = true →
      env.classifyId id = .noopEntry ⟨id, "Unchanged since last sync"⟩) ∧
    ((env.isStoryUnchanged story && env.isCardUnchanged record) = true →
      record ∉ env.checklistTargets) := by
  have hsid : story.id = id := by simpa using List.find?_some hs
  have hrid : record.storyId = id := (recordById_eq hr).2
  have hnmem : id ∉ env.conflictedIds := by
    intro hmem
    have h2 : env.conflictedIds.contains id = true := List.elem_iff.mpr hmem
    rw [hnc] at h2
    cases h2
  have hcount : (env.prdResult.stories.map (·.id)).count id ≤ 1 := by
    by_contra hgt
    exact hnmem (List.mem_append_left _ (mem_duplicateStoryIds.mpr (by omega)))
  have hfp := storyFingerprints_of_prdById hs hcount
  have hstoryIff : env.isStoryUnchanged story = true ↔
      mapGet st.storyIndex id =
        some ⟨createStoryFingerprint env.hashText story⟩ := by
    have hred : env.isStoryUnchanged story =
        (match mapGet st.storyIndex story.id with
         | none => false
         | some previous =>
             match env.storyFingerprints story.id with
             | some fp => previous.fingerprint == fp
             | none => false) := by
      unfold SyncEnv.isStoryUnchanged
      rw [hst]
    rw [hred, hsid, hfp]
    cases hm : mapGet st.storyIndex id with
    | none => simp
    | some previous =>
      cases previous with
      | mk fp => simp
  have hcardIff : env.isCardUnchanged record = true ↔
      mapGet st.cardIndex id =
        some ⟨record.card.id, record.card.lastActivityAt⟩ := by
    have hred : env.isCardUnchanged record =
        (match mapGet st.cardIndex record.storyId with
         | none => false
         | some previous =>
             previous.cardId == record.card.id &&
             previous.lastActivityAt == record.card.lastActivityAt) := by
      unfold SyncEnv.isCardUnchanged
      rw [hst]
    rw [hred, hrid]
    cases hm : mapGet st.cardIndex id with
    | none => simp
    | some previous =>
      cases previous with
      | mk cid lact => simp
  refine ⟨?_, ?_, ?_⟩
  · rw [Bool.and_eq_true, hstoryIff, hcardIff]
  · intro h
    rw [classifyId_pair hnc hs hr]
    unfold SyncEnv.classifyPair
    rw [if_pos (by
      unfold SyncEnv.pairUnchangedGate
      rw [hst]
      exact h)]
  · intro h
    intro hmem
    have hp := (List.mem_filter.mp hmem).2
    rw [hrid, hs, hst] at hp
    have hp' : (!(env.isStoryUnchanged story && env.isCardUnchanged record)) =
        true := hp
    rw [h] at hp'
    cases hp'

theorem createStatusMapping_statusToListId (lists : List BoardList)
    (stl : StatusToList) :
    (createStatusMapping lists stl).statusToListId =
      (([] ++ (match (chooseListForStatus lists .open_ stl.open_).1 with
          | some l => [((.open_ : StoryStatus), l.id)] | none => [])) ++
        (match (chooseListForStatus lists .in_progress stl.in_progress).1 with
          | some l => [((.in_progress : StoryStatus), l.id)] | none => [])) ++
      (match (chooseListForStatus lists .done stl.done).1 with
        | some l => [((.done : StoryStatus), l.id)] | none => []) := rfl

theorem createStatusMapping_issues (lists : List BoardList)
    (stl : StatusToList) :
    (createStatusMapping lists stl).issues =
      (([] ++ (chooseListForStatus lists .open_ stl.open_).2) ++
        (chooseListForStatus lists .in_progress stl.in_progress).2) ++
      (chooseListForStatus lists .done stl.done).2 := rfl

/-- Looking a status up in the built mapping is exactly the per-status
choice. -/
theorem createStatusMapping_lookup (lists : List BoardList) (stl : StatusToList)
    (status : StoryStatus) :
    mapGet (createStatusMapping lists stl).statusToListId status =
      ((chooseListForStatus lists status (statusBoundName stl status)).1).map
        (fun l => l.id) := by
  rw [createStatusMapping_statusToListId]
  cases status <;>
    cases h1 : (chooseListForStatus lists .open_ stl.open_).1 <;>
    cases h2 : (chooseListForStatus lists .in_progress stl.in_progress).1 <;>
    cases h3 : (chooseListForStatus lists .done stl.done).1 <;>
    simp [mapGet, statusBoundName, h1, h2, h3]

/-- An element of the candidate tier is a list with the target name. -/
theorem mem_chooseList_tier {lists : List BoardList} {name : String}
    {l : BoardList}
    (h : l ∈ (if (lists.filter
        (fun l => l.name == name && !l.closed)).length > 0 then
      lists.filter (fun l => l.name == name && !l.closed)
    else lists.filter (fun l => l.name == name))) :
    l ∈ lists ∧ l.name = name := by
  by_cases hopen : (lists.filter
      (fun l => l.name == name && !l.closed)).length > 0
  · rw [if_pos hopen] at h
    have := List.mem_filter.mp h
    refine ⟨this.1, ?_⟩
    have hp := this.2
    rw [Bool.and_eq_true] at hp
    simpa using hp.1
  · rw [if_neg hopen] at h
    have := List.mem_filter.mp h
    exact ⟨this.1, by simpa using this.2⟩

/-- The selected list of `chooseListForStatus`: a name match, open when an
open match exists, with the smallest id in its candidate tier. -/
theorem chooseListForStatus_some {lists : List BoardList} {status : StoryStatus}
    {name : String} {l : BoardList}
    (h : (chooseListForStatus lists status name).1 = some l) :
    l ∈ lists ∧ l.name = name ∧
    ((∃ l', l' ∈ lists ∧ l'.name = name ∧ l'.closed = false) →
      l.closed = false) ∧
    (∀ l', l' ∈ lists → l'.name = name → l'.closed = l.closed →
      strLe l.id l'.id = true) := by
  unfold chooseListForStatus at h
  set openMatches := lists.filter (fun l => l.name == name && !l.closed) with hopenM
  set allMatches := lists.filter (fun l => l.name == name) with hallM
  set tier := if openMatches.length > 0 then openMatches else allMatches with htier
  by_cases hlen : tier.length = 0
  · rw [if_pos hlen] at h
    cases h
  · rw [if_neg hlen] at h
    have hfound := List.find?_some h
    have hmem : l ∈ tier := List.mem_of_find?_eq_some h
    have hchosen : some l.id = (sortStrings (tier.map (fun l => l.id))).head? := by
      simpa using hfound
    have hml : l ∈ lists ∧ l.name = name := mem_chooseList_tier hmem
    have hmin : ∀ y ∈ tier.map (fun l => l.id), strLe l.id y = true :=
      fun y hy => sortStrings_head_le hchosen.symm hy
    refine ⟨hml.1, hml.2, ?_, ?_⟩
    · rintro ⟨l', hl', hname', hopen'⟩
      have hl'open : l' ∈ openMatches := by
        rw [hopenM]
        rw [List.mem_filter]
        exact ⟨hl', by simp [hname', hopen']⟩
      have hpos : openMatches.length > 0 :=
        List.length_pos.mpr (List.ne_nil_of_mem hl'open)
      have : tier = openMatches := by rw [htier, if_pos hpos]
      have hlopen : l ∈ openMatches := this ▸ hmem
      have hp := (List.mem_filter.mp hlopen).2
      rw [Bool.and_eq_true] at hp
      simpa using hp.2
    · intro l' hl' hname' hclosed'
      have htmem : l' ∈ tier := by
        by_cases hpos : openMatches.length > 0
        · have hteq : tier = openMatches := by rw [htier, if_pos hpos]
          have hlopen : l ∈ openMatches := hteq ▸ hmem
          have hp := (List.mem_filter.mp hlopen).2
          rw [Bool.and_eq_true] at hp
          have hlopenb : l.closed = false := by simpa using hp.2
          rw [hteq]
          rw [List.mem_filter]
          refine ⟨hl', ?_⟩
          rw [Bool.and_eq_true]
          refine ⟨by simpa using hname', ?_⟩
          rw [hclosed', hlopenb]
          rfl
        · have hteq : tier = allMatches := by rw [htier, if_neg hpos]
          rw [hteq, hallM]
          rw [List.mem_filter]
          exact ⟨hl', by simpa using hname'⟩
      exact hmin l'.id (List.mem_map_of_mem (fun l => l.id) htmem)

/-- `chooseListForStatus` either maps nothing — exactly when no list carries
the bound name, recording the missing-mapping issue — or selects some
list. -/
theorem chooseListForStatus_cases (lists : List BoardList)
    (status : StoryStatus) (name : String) :
    ((chooseListForStatus lists status name).1 = none ∧
     lists.filter (fun l => l.name == name) = [] ∧
     (chooseListForStatus lists status name).2 = [noListIssue status name]) ∨
    (∃ l, (chooseListForStatus lists status name).1 = some l) := by
  simp only [chooseListForStatus]
  set openMatches := lists.filter (fun l => l.name == name && !l.closed)
    with hopenM
  set allMatches := lists.filter (fun l => l.name == name) with hallM
  set tier := if openMatches.length > 0 then openMatches else allMatches
    with htier
  by_cases hlen : tier.length = 0
  · rw [if_pos hlen]
    refine Or.inl ⟨rfl, ?_, rfl⟩
    by_cases hpos : openMatches.length > 0
    · have : tier = openMatches := by rw [htier, if_pos hpos]
      rw [this] at hlen
      omega
    · have hteq : tier = allMatches := by rw [htier, if_neg hpos]
      rw [hteq] at hlen
      exact List.eq_nil_of_length_eq_zero hlen
  · rw [if_neg hlen]
    refine Or.inr ?_
    cases hsort : sortStrings (tier.map (fun l => l.id)) with
    | nil =>
      exfalso
      have hperm := sortStrings_perm (tier.map (fun l => l.id))
      rw [hsort] at hperm
      have hnil : tier.map (fun l => l.id) = [] := hperm.symm.eq_nil
      rw [List.map_eq_nil_iff] at hnil
      rw [hnil] at hlen
      exact hlen rfl
    | cons y rest =>
      have hy : y ∈ sortStrings (tier.map (fun l => l.id)) := by
        rw [hsort]
        exact List.mem_cons_self y rest
      rw [mem_sortStrings] at hy
      rw [List.mem_map] at hy
      obtain ⟨l', hl', hid⟩ := hy
      have hsome : ((tier.find? (fun l =>
          some l.id == (y :: rest).head?)).isSome) = true := by
        rw [List.find?_isSome]
        exact ⟨l', hl', by simp [hid]⟩
      rcases Option.isSome_iff_exists.mp hsome with ⟨l0, hl0⟩
      exact ⟨l0, hl0⟩

/-- Two open lists sharing the bound name force the ambiguity issue. -/
theorem chooseListForStatus_ambiguous (lists : List BoardList)
    (status : StoryStatus) (name : String)
    (h2 : 2 ≤ (lists.filter (fun l => l.name == name && !l.closed)).length) :
    (chooseListForStatus lists status name).2 =
      [multipleListsIssue status name] := by
  have hpos : (lists.filter (fun l => l.name == name && !l.closed)).length > 0 := by
    omega
  simp only [chooseListForStatus]
  rw [if_pos hpos]
  rw [if_neg (by omega), if_pos (by omega)]

/-- Every status-mapping issue surfaces as a plan-level conflict. -/
theorem statusIssue_mem_plan_conflicts {env : SyncEnv} {issue : String}
    (h : issue ∈ env.statusMapping.issues) :
    (⟨none, issue, [], none⟩ : SyncConflict) ∈ (buildPlan env).conflicts := by
  unfold buildPlan
  rw [(sortByKey_perm _ _).mem_iff]
  refine List.mem_append_left _ ?_
  refine List.mem_append_left _ ?_
  refine List.mem_append_left _ ?_
  refine List.mem_append_left _ ?_
  unfold SyncEnv.statusIssueConflicts
  exact List.mem_map_of_mem _ h

/-- The per-status issues are among the built mapping's issues. -/
theorem chooseList_issue_mem_statusMapping {env : SyncEnv}
    (status : StoryStatus) {issue : String}
    (h : issue ∈ (chooseListForStatus env.lists status
      (statusBoundName env.mapping.statusToList status)).2) :
    issue ∈ env.statusMapping.issues := by
  show issue ∈ (createStatusMapping env.lists env.mapping.statusToList).issues
  rw [createStatusMapping_issues]
  cases status
  · exact List.mem_append_left _ (List.mem_append_left _
      (List.mem_append_right _ h))
  · exact List.mem_append_left _ (List.mem_append_right _ h)
  · exact List.mem_append_right _ h

/-- C6: the status-to-list mapping selects only among lists carrying the
bound name, preferring open lists and breaking ties by smallest list id
while recording an ambiguity issue; with no name match it maps nothing and
records a missing-mapping issue; and every recorded issue surfaces as a
plan-level conflict. -/
theorem C6_status_mapping_policy (env : SyncEnv) (status : StoryStatus) :
    (mapGet env.statusMapping.statusToListId status =
      ((chooseListForStatus env.lists status
        (statusBoundName env.mapping.statusToList status)).1).map
          (fun l => l.id)) ∧
    (∀ l, (chooseListForStatus env.lists status
        (statusBoundName env.mapping.statusToList status)).1 = some l →
      l ∈ env.lists ∧
      l.name = statusBoundName env.mapping.statusToList status ∧
      ((∃ l', l' ∈ env.lists ∧
          l'.name = statusBoundName env.mapping.statusToList status ∧
          l'.closed = false) → l.closed = false) ∧
      (∀ l', l' ∈ env.lists →
        l'.name = statusBoundName env.mapping.statusToList status →
        l'.closed = l.closed → strLe l.id l'.id = true)) ∧
    ((chooseListForStatus env.lists status
        (statusBoundName env.mapping.statusToList status)).1 = none ↔
      ∀ l ∈ env.lists,
        l.name ≠ statusBoundName env.mapping.statusToList status) ∧
    ((chooseListForStatus env.lists status
        (statusBoundName env.mapping.statusToList status)).1 = none →
      (chooseListForStatus env.lists status
        (statusBoundName env.mapping.statusToList status)).2 =
        [noListIssue status (statusBoundName env.mapping.statusToList status)]) ∧
    (2 ≤ (env.lists.filter (fun l =>
        l.name == statusBoundName env.mapping.statusToList status &&
        !l.closed)).length →
      (chooseListForStatus env.lists status
        (statusBoundName env.mapping.statusToList status)).2 =
        [multipleListsIssue status
          (statusBoundName env.mapping.statusToList status)]) ∧
    (∀ issue ∈ env.statusMapping.issues,
      (⟨none, issue, [], none⟩ : SyncConflict) ∈ (buildPlan env).conflicts) := by
  refine ⟨createStatusMapping_lookup env.lists env.mapping.statusToList status,
    fun l hl => chooseListForStatus_some hl, ?_, ?_, ?_,
    fun issue hi => statusIssue_mem_plan_conflicts hi⟩
  · constructor
    · intro hnone
      rcases chooseListForStatus_cases env.lists status
          (statusBoundName env.mapping.statusToList status) with
        ⟨_, hempty, _⟩ | ⟨l, hsome⟩
      · intro l hl hname
        have : l ∈ env.lists.filter (fun l0 =>
            l0.name == statusBoundName env.mapping.statusToList status) := by
          rw [List.mem_filter]
          exact ⟨hl, by simpa using hname⟩
        rw [hempty] at this
        cases this
      · rw [hsome] at hnone
        cases hnone
    · intro hall
      rcases chooseListForStatus_cases env.lists status
          (statusBoundName env.mapping.statusToList status) with
        ⟨hnone, _, _⟩ | ⟨l, hsome⟩
      · exact hnone
      · exfalso
        obtain ⟨hmem, hname, _, _⟩ := chooseListForStatus_some hsome
        exact hall l hmem hname
  · intro hnone
    rcases chooseListForStatus_cases env.lists status
        (statusBoundName env.mapping.statusToList status) with
      ⟨_, _, hiss⟩ | ⟨l, hsome⟩
    · exact hiss
    · rw [hsome] at hnone
      cases hnone
  · exact chooseListForStatus_ambiguous env.lists status
      (statusBoundName env.mapping.statusToList status)

/-- C1 witness at `envC1`. -/
theorem C1_equal_timestamps_witness :
    (envC1.conflictPrefer = .none_ →
      envC1.classifyId "US-001" = .conflictEntry
        ⟨some "US-001", "PRD and Trello updates conflict (equal timestamps)",
         [recordC1.card], some storyC1⟩) ∧
    (envC1.conflictPrefer = .prd →
      envC1.classifyId "US-001" = .updateEntry
        (envC1.pairTrelloUpdate "US-001" storyC1 recordC1
          "PRD preferred over Trello (equal timestamps)")) ∧
    (envC1.conflictPrefer = .trello →
      envC1.classifyId "US-001" = .updateEntry
        (envC1.pairPrdUpdate "US-001" recordC1
          "Trello preferred over PRD (equal timestamps)")) :=
  C1_equal_timestamps_follow_preference envC1 "US-001" storyC1 recordC1 100
    (by decide) (by decide) (by decide) (by decide) (by decide) (by decide)
    (by decide) (by decide) (by decide)

/-- C10 witness at `envC10`. -/
theorem C10_unparseable_timestamp_witness :
    envC10.pairTimestampComparison recordC10 = 0 ∧
    (envC10.conflictPrefer = .none_ →
      envC10.classifyId "US-001" = .conflictEntry
        ⟨some "US-001", "PRD and Trello updates conflict (equal timestamps)",
         [recordC10.card], some storyC1⟩) ∧
    (envC10.conflictPrefer = .prd →
      envC10.classifyId "US-001" = .updateEntry
        (envC10.pairTrelloUpdate "US-001" storyC1 recordC10
          "PRD preferred over Trello (equal timestamps)")) ∧
    (envC10.conflictPrefer = .trello →
      envC10.classifyId "US-001" = .updateEntry
        (envC10.pairPrdUpdate "US-001" recordC10
          "Trello preferred over PRD (equal timestamps)")) :=
  C10_unparseable_timestamp_is_equality envC10 "US-001" storyC1 recordC10
    (by decide) (by decide) (by decide) (by decide) (by decide) (by decide)
    (by decide) (Or.inr (by decide))

/-- C2 counterexample: with `US-001` duplicated on both sides the plan holds
two conflicts keyed `US-001` (one per side), not exactly one. -/
theorem C2_both_sides_duplicate_counterexample :
    "US-001" ∈ envC2.duplicateStoryIds ∧
    "US-001" ∈ envC2.duplicateCardIds ∧
    (buildPlan envC2).conflicts.countP (fun c => c.id == some "US-001") = 2 := by
  decide

/-- C2 witness at `envC2`. -/
theorem C2_duplicate_identifier_witness :
    (buildPlan envC2).conflicts.countP (fun c => c.id == some "US-001") =
      (if "US-001" ∈ envC2.duplicateStoryIds then 1 else 0) +
      (if "US-001" ∈ envC2.duplicateCardIds then 1 else 0) ∧
    1 ≤ (buildPlan envC2).conflicts.countP (fun c => c.id == some "US-001") ∧
    (∀ c ∈ (buildPlan envC2).creates, SyncCreate.key c ≠ "US-001") ∧
    (∀ u ∈ (buildPlan envC2).updates, SyncUpdate.key u ≠ "US-001") ∧
    (∀ n ∈ (buildPlan envC2).noop, SyncNoop.id n ≠ "US-001") :=
  C2_duplicate_identifier_conflicts envC2 "US-001" (by decide)

/-- C3 witness at `envC3`. -/
theorem C3_incremental_unchanged_witness :
    ((envC3.isStoryUnchanged storyC1 && envC3.isCardUnchanged recordC1) = true ↔
      (mapGet stC3.storyIndex "US-001" =
         some ⟨createStoryFingerprint envC3.hashText storyC1⟩ ∧
       mapGet stC3.cardIndex "US-001" =
         some ⟨recordC1.card.id, recordC1.card.lastActivityAt⟩)) ∧
    ((envC3.isStoryUnchanged storyC1 && envC3.isCardUnchanged recordC1) = true →
      envC3.classifyId "US-001" =
        .noopEntry ⟨"US-001", "Unchanged since last sync"⟩) ∧
    ((envC3.isStoryUnchanged storyC1 && envC3.isCardUnchanged recordC1) = true →
      recordC1 ∉ envC3.checklistTargets) :=
  C3_incremental_unchanged_pairs envC3 stC3 "US-001" storyC1 recordC1
    rfl (by decide) (by decide) (by decide)
